import Mathlib

/-!
# Default-VPC teardown (`main.go`): embedding and verified properties

The program lists the account's regions and, for every region, runs one task
that resolves the default VPC id and removes the VPC's internet gateways,
subnets, route tables, network ACLs and security groups, then the VPC.

Embedding.

* The EC2 API is an external service.  A region-scoped client is a record of
  typed operations over an arbitrary service state `σ`; every operation takes
  the current state and returns its result together with the next state, so an
  operation may answer differently each time it is called.
* A Go `error` is represented by the text of `err.Error()`; `none` is `nil`.
* A `*string` is an `Option String` (`none` is the nil pointer).
* A described resource is represented by its id field, the only field the
  program reads.  A successful call returns a non-nil output whose list
  elements are non-nil, as the SDK's decoder produces them.
* A task yields the chronological list of its observable events: each
  provider call with the reply it got, each write to standard output and each
  write to standard error (a write is the text of one `Printf`/`Fprintf`).
* A line of output is the text written by one `Printf`/`Fprintf` call; every
  format of the program ends with a newline.
* A trace is checked against the client by replaying it: `Genuine` says that
  every logged call gets, from the client, the logged reply in the state the
  earlier logged calls leave, and `endState` is the state they leave.
* A run-time panic (index out of range) is an explicit outcome of a task.
* Creating the session and the client (`session.Must`, `ec2.New`) is taken to
  succeed; it makes no EC2 call.
* The run over all regions records each task as run against its own region's
  client; the interleaving of the tasks is not modelled.
-/

namespace DeleteDefaultVpc

/-! ## SDK values -/

/-- `aws.String`: pointer to a string value. -/
def awsString (v : String) : Option String := some v

/-- `aws.StringValue`: value of a string pointer, `""` for nil. -/
def awsStringValue (p : Option String) : String :=
  match p with
  | some v => v
  | none => ""

/-- `ec2.Filter` (fields `Name`, `Values`). -/
structure Filter where
  Name : Option String
  Values : List (Option String)
deriving DecidableEq, Repr

/-- `ec2.AccountAttributeValue`. -/
structure AccountAttributeValue where
  AttributeValue : Option String
deriving DecidableEq, Repr

/-- `ec2.AccountAttribute`. -/
structure AccountAttribute where
  AttributeName : Option String
  AttributeValues : List AccountAttributeValue
deriving DecidableEq, Repr

/-- `ec2.DescribeAccountAttributesOutput`. -/
structure DescribeAccountAttributesOutput where
  AccountAttributes : List AccountAttribute
deriving DecidableEq, Repr

/-- `ec2.Region` (field `RegionName`). -/
structure Region where
  RegionName : Option String
deriving DecidableEq, Repr

/-! ## Provider calls, replies and events -/

/-- The EC2 operations the program invokes, with the request fields it sets. -/
inductive Call where
  | DescribeAccountAttributes (AttributeNames : List (Option String))
  | DescribeInternetGateways (Filters : List Filter)
  | DetachInternetGateway (InternetGatewayId : Option String) (VpcId : Option String)
  | DeleteInternetGateway (InternetGatewayId : Option String)
  | DescribeSubnets (Filters : List Filter)
  | DeleteSubnet (SubnetId : Option String)
  | DescribeRouteTables (Filters : List Filter)
  | DeleteRouteTable (RouteTableId : Option String)
  | DescribeNetworkAcls (Filters : List Filter)
  | DeleteNetworkAcl (NetworkAclId : Option String)
  | DescribeSecurityGroups (Filters : List Filter)
  | DeleteSecurityGroup (GroupId : Option String)
  | DeleteVpc (VpcId : Option String)
deriving DecidableEq, Repr

/-- What a call returned: an error (its message), plain success of a detach or
delete, the ids of the described resources, or the account attributes. -/
inductive Reply where
  | failed (msg : String)
  | done
  | listed (ids : List (Option String))
  | attributes (out : DescribeAccountAttributesOutput)
deriving DecidableEq, Repr

/-- One observable step of a task. -/
inductive Event where
  | call (c : Call) (r : Reply)
  | stdout (text : String)
  | stderr (text : String)
deriving DecidableEq, Repr

/-- Reply of a detach/delete call whose returned error is `err`. -/
def Reply.ofErr (err : Option String) : Reply :=
  match err with
  | some e => Reply.failed e
  | none => Reply.done

/-- A region-scoped EC2 client over service state `σ`. -/
structure EC2 (σ : Type) where
  DescribeAccountAttributes :
    List (Option String) → σ → Except String DescribeAccountAttributesOutput × σ
  DescribeInternetGateways : List Filter → σ → Except String (List (Option String)) × σ
  DetachInternetGateway : Option String → Option String → σ → Option String × σ
  DeleteInternetGateway : Option String → σ → Option String × σ
  DescribeSubnets : List Filter → σ → Except String (List (Option String)) × σ
  DeleteSubnet : Option String → σ → Option String × σ
  DescribeRouteTables : List Filter → σ → Except String (List (Option String)) × σ
  DeleteRouteTable : Option String → σ → Option String × σ
  DescribeNetworkAcls : List Filter → σ → Except String (List (Option String)) × σ
  DeleteNetworkAcl : Option String → σ → Option String × σ
  DescribeSecurityGroups : List Filter → σ → Except String (List (Option String)) × σ
  DeleteSecurityGroup : Option String → σ → Option String × σ
  DeleteVpc : Option String → σ → Option String × σ

/-! ## Formatting -/

/-- The verb `%-15s`: the text, padded on the right with spaces to 15 code points. -/
def pad15 (s : String) : String :=
  s ++ String.mk (List.replicate (15 - s.length) ' ')

/-- Text of `fmt.Printf("rm %-15s %-15s%s\n", region, id, errmsg)`. -/
def rmLine (region id errmsg : String) : String :=
  "rm " ++ pad15 region ++ " " ++ pad15 id ++ errmsg ++ "\n"

/-- Text of `fmt.Sprintf(" (error: %s)", err.Error())`. -/
def errorSuffix (msg : String) : String :=
  " (error: " ++ msg ++ ")"

/-- Text of `fmt.Sprintf(" (detach error: %s)", err.Error())`. -/
def detachErrorSuffix (msg : String) : String :=
  " (detach error: " ++ msg ++ ")"

/-- Text of `"error: %s %s failed to get <what>: %s\n"` for region, VPC id, error. -/
def listErrorLine (what region vpc_id msg : String) : String :=
  "error: " ++ region ++ " " ++ vpc_id ++ " failed to get " ++ what ++ ": " ++ msg ++ "\n"

/-- Text of `"error: %s account attrs: %s\n"` for region, error. -/
def attrsErrorLine (region msg : String) : String :=
  "error: " ++ region ++ " account attrs: " ++ msg ++ "\n"

/-! ## The program -/

/-- `makeEC2Filters`. -/
def makeEC2Filters (attr val : String) : List Filter :=
  [{ Name := awsString attr, Values := [awsString val] }]

/-- The `for` loop shared, up to the delete operation, by `rmAcls`, `rmRtbs`,
`rmSgs` and `rmSubns`: delete the resource, set `errmsg` when the delete
returned an error, print the line. -/
def deleteEach {σ : Type} (delete : Option String → σ → Option String × σ)
    (mk : Option String → Call) (region : String) :
    List (Option String) → σ → σ × List Event
  | [], s => (s, [])
  | id :: rest, s =>
    let r := delete id s
    let errmsg := match r.1 with
      | some e => errorSuffix e
      | none => ""
    let t := deleteEach delete mk region rest r.2
    (t.1, Event.call (mk id) (Reply.ofErr r.1)
            :: Event.stdout (rmLine region (awsStringValue id) errmsg) :: t.2)

/-- `rmAcls`. -/
def rmAcls {σ : Type} (svc : EC2 σ) (vpc_id region : String) (s : σ) : σ × List Event :=
  let r := svc.DescribeNetworkAcls (makeEC2Filters "vpc-id" vpc_id) s
  let c := Call.DescribeNetworkAcls (makeEC2Filters "vpc-id" vpc_id)
  match r.1 with
  | Except.error e =>
    (r.2, [Event.call c (Reply.failed e), Event.stderr (listErrorLine "nacls" region vpc_id e)])
  | Except.ok result =>
    let t := deleteEach svc.DeleteNetworkAcl Call.DeleteNetworkAcl region result r.2
    (t.1, Event.call c (Reply.listed result) :: t.2)

/-- The `for` loop of `rmIgws`: detach the gateway; only when the detach
returned no error, delete it; print the line with the error of the step that
failed. -/
def detachDeleteEach {σ : Type} (svc : EC2 σ) (vpc_id region : String) :
    List (Option String) → σ → σ × List Event
  | [], s => (s, [])
  | igw :: rest, s =>
    let d := svc.DetachInternetGateway igw (awsString vpc_id) s
    let cd := Event.call (Call.DetachInternetGateway igw (awsString vpc_id)) (Reply.ofErr d.1)
    match d.1 with
    | some e =>
      let t := detachDeleteEach svc vpc_id region rest d.2
      (t.1, cd :: Event.stdout (rmLine region (awsStringValue igw) (detachErrorSuffix e)) :: t.2)
    | none =>
      let x := svc.DeleteInternetGateway igw d.2
      let errmsg := match x.1 with
        | some e => errorSuffix e
        | none => ""
      let t := detachDeleteEach svc vpc_id region rest x.2
      (t.1, cd :: Event.call (Call.DeleteInternetGateway igw) (Reply.ofErr x.1)
              :: Event.stdout (rmLine region (awsStringValue igw) errmsg) :: t.2)

/-- `rmIgws`. -/
def rmIgws {σ : Type} (svc : EC2 σ) (vpc_id region : String) (s : σ) : σ × List Event :=
  let r := svc.DescribeInternetGateways (makeEC2Filters "attachment.vpc-id" vpc_id) s
  let c := Call.DescribeInternetGateways (makeEC2Filters "attachment.vpc-id" vpc_id)
  match r.1 with
  | Except.error e =>
    (r.2, [Event.call c (Reply.failed e), Event.stderr (listErrorLine "igws" region vpc_id e)])
  | Except.ok result =>
    let t := detachDeleteEach svc vpc_id region result r.2
    (t.1, Event.call c (Reply.listed result) :: t.2)

/-- `rmRtbs`. -/
def rmRtbs {σ : Type} (svc : EC2 σ) (vpc_id region : String) (s : σ) : σ × List Event :=
  let r := svc.DescribeRouteTables (makeEC2Filters "vpc-id" vpc_id) s
  let c := Call.DescribeRouteTables (makeEC2Filters "vpc-id" vpc_id)
  match r.1 with
  | Except.error e =>
    (r.2, [Event.call c (Reply.failed e), Event.stderr (listErrorLine "rtbs" region vpc_id e)])
  | Except.ok result =>
    let t := deleteEach svc.DeleteRouteTable Call.DeleteRouteTable region result r.2
    (t.1, Event.call c (Reply.listed result) :: t.2)

/-- `rmSgs`. -/
def rmSgs {σ : Type} (svc : EC2 σ) (vpc_id region : String) (s : σ) : σ × List Event :=
  let r := svc.DescribeSecurityGroups (makeEC2Filters "vpc-id" vpc_id) s
  let c := Call.DescribeSecurityGroups (makeEC2Filters "vpc-id" vpc_id)
  match r.1 with
  | Except.error e =>
    (r.2, [Event.call c (Reply.failed e), Event.stderr (listErrorLine "sgs" region vpc_id e)])
  | Except.ok result =>
    let t := deleteEach svc.DeleteSecurityGroup Call.DeleteSecurityGroup region result r.2
    (t.1, Event.call c (Reply.listed result) :: t.2)

/-- `rmSubns`. -/
def rmSubns {σ : Type} (svc : EC2 σ) (vpc_id region : String) (s : σ) : σ × List Event :=
  let r := svc.DescribeSubnets (makeEC2Filters "vpc-id" vpc_id) s
  let c := Call.DescribeSubnets (makeEC2Filters "vpc-id" vpc_id)
  match r.1 with
  | Except.error e =>
    (r.2, [Event.call c (Reply.failed e), Event.stderr (listErrorLine "subnets" region vpc_id e)])
  | Except.ok result =>
    let t := deleteEach svc.DeleteSubnet Call.DeleteSubnet region result r.2
    (t.1, Event.call c (Reply.listed result) :: t.2)

/-- `rmVpc`. -/
def rmVpc {σ : Type} (svc : EC2 σ) (vpc_id region : String) (s : σ) : σ × List Event :=
  let r := svc.DeleteVpc (awsString vpc_id) s
  let errmsg := match r.1 with
    | some e => errorSuffix e
    | none => ""
  (r.2, [Event.call (Call.DeleteVpc (awsString vpc_id)) (Reply.ofErr r.1),
         Event.stdout (rmLine region vpc_id errmsg)])

/-- The expression `attrs.AccountAttributes[0].AttributeValues[0].AttributeValue`
under `aws.StringValue`; `none` when an index is out of range (the run-time
panics). -/
def defaultVpcId (attrs : DescribeAccountAttributesOutput) : Option String :=
  match attrs.AccountAttributes with
  | [] => none
  | a :: _ =>
    match a.AttributeValues with
    | [] => none
    | v :: _ => some (awsStringValue v.AttributeValue)

/-- How a task ended: its function returned, or it panicked. -/
inductive Outcome where
  | returned
  | panicked
deriving DecidableEq, Repr

/-- What one region task did. -/
structure TaskResult (σ : Type) where
  state : σ
  events : List Event
  outcome : Outcome

/-- The body of the goroutine started by `main` for one region. -/
def regionTask {σ : Type} (svc : EC2 σ) (region : String) (s : σ) : TaskResult σ :=
  let names := [awsString "default-vpc"]
  let r := svc.DescribeAccountAttributes names s
  match r.1 with
  | Except.error e =>
    { state := r.2
      events := [Event.call (Call.DescribeAccountAttributes names) (Reply.failed e),
                 Event.stderr (attrsErrorLine region e)]
      outcome := Outcome.returned }
  | Except.ok attrs =>
    let c := Event.call (Call.DescribeAccountAttributes names) (Reply.attributes attrs)
    match defaultVpcId attrs with
    | none => { state := r.2, events := [c], outcome := Outcome.panicked }
    | some vpc_id =>
      let t1 := rmIgws svc vpc_id region r.2
      let t2 := rmSubns svc vpc_id region t1.1
      let t3 := rmRtbs svc vpc_id region t2.1
      let t4 := rmAcls svc vpc_id region t3.1
      let t5 := rmSgs svc vpc_id region t4.1
      let t6 := rmVpc svc vpc_id region t5.1
      { state := t6.1
        events := c :: (t1.2 ++ t2.2 ++ t3.2 ++ t4.2 ++ t5.2 ++ t6.2)
        outcome := Outcome.returned }

/-- `getRegions` applied to the result of `DescribeRegions`: the regions, or
`none` when the call returned an error (the function panics). -/
def getRegions (resp : Except String (List Region)) : Option (List Region) :=
  match resp with
  | Except.error _ => none
  | Except.ok regions => some regions

/-- What a run of the process did: the tasks it started, each with the region
name it was given and what it did when run to its end, and whether the
process was brought down by a panic. -/
structure RunResult (σ : Type) where
  tasks : List (String × TaskResult σ)
  crashed : Bool

/-- The function `main`: one task per listed region, each with a client of its
own for that region (`svc region`, service state `init region`).  A task is
recorded as it runs by itself; an unrecovered panic in `getRegions` or in any
task terminates the process. -/
def main {σ : Type} (resp : Except String (List Region)) (svc : String → EC2 σ)
    (init : String → σ) : RunResult σ :=
  match getRegions resp with
  | none => { tasks := [], crashed := true }
  | some regions =>
    let tasks := regions.map fun region =>
      let name := awsStringValue region.RegionName
      (name, regionTask (svc name) name (init name))
    { tasks := tasks
      crashed := tasks.any fun t => decide (t.2.outcome = Outcome.panicked) }

/-! ## Vocabulary of the specification -/

/-- The five kinds of dependent resource, in the order of their phases. -/
inductive Kind where
  | InternetGateway
  | Subnet
  | RouteTable
  | NetworkAcl
  | SecurityGroup
deriving DecidableEq, Repr

/-- Name of the filter a kind is listed by. -/
def Kind.filterName : Kind → String
  | Kind.InternetGateway => "attachment.vpc-id"
  | _ => "vpc-id"

/-- The filters of the list call of kind `k` for a VPC. -/
def Kind.filters (k : Kind) (vpc_id : String) : List Filter :=
  [{ Name := some k.filterName, Values := [some vpc_id] }]

/-- The list call of a kind. -/
def Kind.listCall : Kind → List Filter → Call
  | Kind.InternetGateway => Call.DescribeInternetGateways
  | Kind.Subnet => Call.DescribeSubnets
  | Kind.RouteTable => Call.DescribeRouteTables
  | Kind.NetworkAcl => Call.DescribeNetworkAcls
  | Kind.SecurityGroup => Call.DescribeSecurityGroups

/-- The delete call of a kind. -/
def Kind.deleteCall : Kind → Option String → Call
  | Kind.InternetGateway => Call.DeleteInternetGateway
  | Kind.Subnet => Call.DeleteSubnet
  | Kind.RouteTable => Call.DeleteRouteTable
  | Kind.NetworkAcl => Call.DeleteNetworkAcl
  | Kind.SecurityGroup => Call.DeleteSecurityGroup

/-- The word for a kind in the message of a failed list call. -/
def Kind.what : Kind → String
  | Kind.InternetGateway => "igws"
  | Kind.Subnet => "subnets"
  | Kind.RouteTable => "rtbs"
  | Kind.NetworkAcl => "nacls"
  | Kind.SecurityGroup => "sgs"

/-- Position of a kind's phase in the teardown order, 1 to 5. -/
def Kind.index : Kind → Nat
  | Kind.InternetGateway => 1
  | Kind.Subnet => 2
  | Kind.RouteTable => 3
  | Kind.NetworkAcl => 4
  | Kind.SecurityGroup => 5

/-- The function of the program that runs a kind's phase. -/
def Kind.run {σ : Type} : Kind → EC2 σ → String → String → σ → σ × List Event
  | Kind.InternetGateway => rmIgws
  | Kind.Subnet => rmSubns
  | Kind.RouteTable => rmRtbs
  | Kind.NetworkAcl => rmAcls
  | Kind.SecurityGroup => rmSgs

/-- The client operation behind a kind's list call. -/
def Kind.describe {σ : Type} :
    Kind → EC2 σ → List Filter → σ → Except String (List (Option String)) × σ
  | Kind.InternetGateway => EC2.DescribeInternetGateways
  | Kind.Subnet => EC2.DescribeSubnets
  | Kind.RouteTable => EC2.DescribeRouteTables
  | Kind.NetworkAcl => EC2.DescribeNetworkAcls
  | Kind.SecurityGroup => EC2.DescribeSecurityGroups

/-- Phase of a call: 0 for the account-attribute lookup, 1 to 5 for the calls
on the five resource kinds, 6 for `DeleteVpc`. -/
def Call.phase : Call → Nat
  | Call.DescribeAccountAttributes _ => 0
  | Call.DescribeInternetGateways _ => 1
  | Call.DetachInternetGateway _ _ => 1
  | Call.DeleteInternetGateway _ => 1
  | Call.DescribeSubnets _ => 2
  | Call.DeleteSubnet _ => 2
  | Call.DescribeRouteTables _ => 3
  | Call.DeleteRouteTable _ => 3
  | Call.DescribeNetworkAcls _ => 4
  | Call.DeleteNetworkAcl _ => 4
  | Call.DescribeSecurityGroups _ => 5
  | Call.DeleteSecurityGroup _ => 5
  | Call.DeleteVpc _ => 6

/-- For a list call: the kind listed and the filters sent. -/
def Call.lists? : Call → Option (Kind × List Filter)
  | Call.DescribeInternetGateways f => some (Kind.InternetGateway, f)
  | Call.DescribeSubnets f => some (Kind.Subnet, f)
  | Call.DescribeRouteTables f => some (Kind.RouteTable, f)
  | Call.DescribeNetworkAcls f => some (Kind.NetworkAcl, f)
  | Call.DescribeSecurityGroups f => some (Kind.SecurityGroup, f)
  | _ => none

/-- For a detach or delete call on a dependent resource: its kind and the id
it targets. -/
def Call.target? : Call → Option (Kind × Option String)
  | Call.DetachInternetGateway g _ => some (Kind.InternetGateway, g)
  | Call.DeleteInternetGateway g => some (Kind.InternetGateway, g)
  | Call.DeleteSubnet g => some (Kind.Subnet, g)
  | Call.DeleteRouteTable g => some (Kind.RouteTable, g)
  | Call.DeleteNetworkAcl g => some (Kind.NetworkAcl, g)
  | Call.DeleteSecurityGroup g => some (Kind.SecurityGroup, g)
  | _ => none

/-- Whether a call is the first call of a phase: a list call, or `DeleteVpc`. -/
def Call.opensPhase (c : Call) : Bool :=
  c.lists?.isSome || decide (c.phase = 6)

/-- Whether a call is a detach call. -/
def Call.isDetach : Call → Bool
  | Call.DetachInternetGateway _ _ => true
  | _ => false

/-- The call of an event, if it is one. -/
def Event.call? : Event → Option Call
  | Event.call c _ => some c
  | _ => none

/-- The text of a write to standard output. -/
def Event.stdout? : Event → Option String
  | Event.stdout t => some t
  | _ => none

/-- The text of a write to standard error. -/
def Event.stderr? : Event → Option String
  | Event.stderr t => some t
  | _ => none

/-- The provider calls of a trace, in order. -/
def callsOf (t : List Event) : List Call := t.filterMap Event.call?

/-- The writes to standard output of a trace, in order. -/
def stdoutOf (t : List Event) : List String := t.filterMap Event.stdout?

/-- The writes to standard error of a trace, in order. -/
def stderrOf (t : List Event) : List String := t.filterMap Event.stderr?

/-- The error suffix of a printed line for the error a call returned. -/
def suffixOf (err : Option String) : String :=
  match err with
  | some e => errorSuffix e
  | none => ""

/-! ## Shapes of traces -/

/-- The events for one resource of a kind removed by a single delete call. -/
inductive DeleteSteps (k : Kind) (region : String) (g : Option String) : List Event → Prop
  | deleteFailed (e : String) :
    DeleteSteps k region g
      [Event.call (k.deleteCall g) (Reply.failed e),
       Event.stdout (rmLine region (awsStringValue g) (errorSuffix e))]
  | removed :
    DeleteSteps k region g
      [Event.call (k.deleteCall g) Reply.done,
       Event.stdout (rmLine region (awsStringValue g) "")]

/-- The events for one internet gateway: the detach fails and nothing else is
called; or the detach succeeds and the delete fails; or both succeed. -/
inductive GatewaySteps (region vpc_id : String) (g : Option String) : List Event → Prop
  | detachFailed (e : String) :
    GatewaySteps region vpc_id g
      [Event.call (Call.DetachInternetGateway g (some vpc_id)) (Reply.failed e),
       Event.stdout (rmLine region (awsStringValue g) (detachErrorSuffix e))]
  | deleteFailed (e : String) :
    GatewaySteps region vpc_id g
      [Event.call (Call.DetachInternetGateway g (some vpc_id)) Reply.done,
       Event.call (Call.DeleteInternetGateway g) (Reply.failed e),
       Event.stdout (rmLine region (awsStringValue g) (errorSuffix e))]
  | removed :
    GatewaySteps region vpc_id g
      [Event.call (Call.DetachInternetGateway g (some vpc_id)) Reply.done,
       Event.call (Call.DeleteInternetGateway g) Reply.done,
       Event.stdout (rmLine region (awsStringValue g) "")]

/-- The events for one resource of kind `k`. -/
def Steps (k : Kind) (region vpc_id : String) (g : Option String) (b : List Event) : Prop :=
  match k with
  | Kind.InternetGateway => GatewaySteps region vpc_id g b
  | _ => DeleteSteps k region g b

/-- Shape of the events of one phase: a failed list call and its report on
standard error; or a successful list call followed, for each listed resource
in order, by the events for that resource. -/
def PhaseTrace (k : Kind) (region vpc_id : String) (t : List Event) : Prop :=
  (∃ e, t = [Event.call (k.listCall (k.filters vpc_id)) (Reply.failed e),
             Event.stderr (listErrorLine k.what region vpc_id e)]) ∨
  (∃ rs blocks, t = Event.call (k.listCall (k.filters vpc_id)) (Reply.listed rs)
                      :: blocks.flatten ∧
      List.Forall₂ (Steps k region vpc_id) rs blocks)

/-- The lookup event of a task whose lookup answered `attrs`. -/
def lookupEvent (attrs : DescribeAccountAttributesOutput) : Event :=
  Event.call (Call.DescribeAccountAttributes [some "default-vpc"]) (Reply.attributes attrs)

/-- The events of the VPC deletion when `DeleteVpc` returned the error `err`. -/
def vpcEvents (region vpc_id : String) (err : Option String) : List Event :=
  [Event.call (Call.DeleteVpc (some vpc_id)) (Reply.ofErr err),
   Event.stdout (rmLine region vpc_id (suffixOf err))]

/-- Shape of the events of a task that resolved the VPC id: the lookup, the
five phases in order, the VPC deletion and its line. -/
def TaskTrace (region vpc_id : String) (attrs : DescribeAccountAttributesOutput)
    (t : List Event) : Prop :=
  ∃ (ps : Kind → List Event) (err : Option String),
    t = lookupEvent attrs
        :: (ps Kind.InternetGateway ++ ps Kind.Subnet ++ ps Kind.RouteTable ++
            ps Kind.NetworkAcl ++ ps Kind.SecurityGroup ++ vpcEvents region vpc_id err) ∧
    ∀ k, PhaseTrace k region vpc_id (ps k)

/-! ## Lines and removal attempts -/

/-- An attempt to remove one resource: the id (as printed) and the error that
ended it, if any. -/
structure Attempt where
  id : String
  error : Option String
deriving DecidableEq, Repr

/-- The id a delete call removes. -/
def Call.deletes? : Call → Option (Option String)
  | Call.DeleteInternetGateway g => some g
  | Call.DeleteSubnet g => some g
  | Call.DeleteRouteTable g => some g
  | Call.DeleteNetworkAcl g => some g
  | Call.DeleteSecurityGroup g => some g
  | Call.DeleteVpc g => some g
  | _ => none

/-- The attempt an event concludes: a failed detach ends the attempt on its
gateway with the detach error, a delete call ends the attempt on its resource
with its own outcome; a successful detach and all other events conclude none. -/
def Event.attempt? : Event → Option Attempt
  | Event.call (Call.DetachInternetGateway g _) (Reply.failed e) =>
    some { id := awsStringValue g, error := some e }
  | Event.call c (Reply.failed e) =>
    c.deletes?.map fun g => { id := awsStringValue g, error := some e }
  | Event.call c Reply.done =>
    c.deletes?.map fun g => { id := awsStringValue g, error := none }
  | _ => none

/-- The removal attempts of a trace, in order. -/
def attemptsOf (t : List Event) : List Attempt := t.filterMap Event.attempt?

/-- The resources a successful list call returned. -/
def Event.listed : Event → List (Option String)
  | Event.call _ (Reply.listed rs) => rs
  | _ => []

/-- The resources returned by the successful list calls of a trace, in order. -/
def listedOf (t : List Event) : List (Option String) := (t.map Event.listed).flatten

/-- The line for an attempt: `rm`, the region and the id each padded to 15, a
suffix and a newline; the suffix is empty when the attempt succeeded, and
otherwise a non-empty parenthesised text that ends with the error's message. -/
def LineFor (region : String) (a : Attempt) (line : String) : Prop :=
  ∃ suffix, line = "rm " ++ pad15 region ++ " " ++ pad15 a.id ++ suffix ++ "\n" ∧
    ((a.error = none ∧ suffix = "") ∨
     (∃ e label, a.error = some e ∧ suffix = " (" ++ label ++ e ++ ")" ∧ suffix ≠ ""))

/-! ## Replaying a trace against the provider -/

/-- The reply that stands for the error a detach or delete operation returned. -/
def errorReply (err : Option String) : Reply :=
  match err with
  | none => Reply.done
  | some e => Reply.failed e

/-- The reply that stands for the result of a list operation. -/
def listReply (res : Except String (List (Option String))) : Reply :=
  match res with
  | Except.ok ids => Reply.listed ids
  | Except.error e => Reply.failed e

/-- The reply that stands for the result of the account-attribute lookup. -/
def attributesReply (res : Except String DescribeAccountAttributesOutput) : Reply :=
  match res with
  | Except.ok out => Reply.attributes out
  | Except.error e => Reply.failed e

/-- What the client answers when the call `c` is made in state `s`: the reply
and the state the service is left in. -/
def EC2.answer {σ : Type} (svc : EC2 σ) (c : Call) (s : σ) : Reply × σ :=
  match c with
  | Call.DescribeAccountAttributes names =>
    (attributesReply (svc.DescribeAccountAttributes names s).1,
     (svc.DescribeAccountAttributes names s).2)
  | Call.DescribeInternetGateways f =>
    (listReply (svc.DescribeInternetGateways f s).1, (svc.DescribeInternetGateways f s).2)
  | Call.DetachInternetGateway g v =>
    (errorReply (svc.DetachInternetGateway g v s).1, (svc.DetachInternetGateway g v s).2)
  | Call.DeleteInternetGateway g =>
    (errorReply (svc.DeleteInternetGateway g s).1, (svc.DeleteInternetGateway g s).2)
  | Call.DescribeSubnets f =>
    (listReply (svc.DescribeSubnets f s).1, (svc.DescribeSubnets f s).2)
  | Call.DeleteSubnet g =>
    (errorReply (svc.DeleteSubnet g s).1, (svc.DeleteSubnet g s).2)
  | Call.DescribeRouteTables f =>
    (listReply (svc.DescribeRouteTables f s).1, (svc.DescribeRouteTables f s).2)
  | Call.DeleteRouteTable g =>
    (errorReply (svc.DeleteRouteTable g s).1, (svc.DeleteRouteTable g s).2)
  | Call.DescribeNetworkAcls f =>
    (listReply (svc.DescribeNetworkAcls f s).1, (svc.DescribeNetworkAcls f s).2)
  | Call.DeleteNetworkAcl g =>
    (errorReply (svc.DeleteNetworkAcl g s).1, (svc.DeleteNetworkAcl g s).2)
  | Call.DescribeSecurityGroups f =>
    (listReply (svc.DescribeSecurityGroups f s).1, (svc.DescribeSecurityGroups f s).2)
  | Call.DeleteSecurityGroup g =>
    (errorReply (svc.DeleteSecurityGroup g s).1, (svc.DeleteSecurityGroup g s).2)
  | Call.DeleteVpc g =>
    (errorReply (svc.DeleteVpc g s).1, (svc.DeleteVpc g s).2)

/-- The state of the service after the calls of a trace have been made, one
after the other and each exactly once, starting in state `s`. -/
def endState {σ : Type} (svc : EC2 σ) : List Event → σ → σ
  | [], s => s
  | Event.call c _ :: t, s => endState svc t (svc.answer c s).2
  | Event.stdout _ :: t, s => endState svc t s
  | Event.stderr _ :: t, s => endState svc t s

/-- A trace is genuine from state `s` when every call event carries the reply
the client gives to that call in the state reached by making the earlier
calls of the trace, one after the other and each exactly once, from `s`. -/
def Genuine {σ : Type} (svc : EC2 σ) : List Event → σ → Prop
  | [], _ => True
  | Event.call c r :: t, s => (svc.answer c s).1 = r ∧ Genuine svc t (svc.answer c s).2
  | Event.stdout _ :: t, s => Genuine svc t s
  | Event.stderr _ :: t, s => Genuine svc t s

/-- The text `t` is `s` followed by spaces only, as many as bring it to 15
code points, none when `s` has 15 or more. -/
def Padded15 (s t : String) : Prop :=
  ∃ n, t = s ++ String.mk (List.replicate n ' ') ∧ t.length = max 15 s.length

/-- The text `line` is `rm`, a space, the region padded to 15, a space, the id
padded to 15, the suffix and a newline. -/
def RmLine (region id suffix line : String) : Prop :=
  ∃ pr pg, Padded15 region pr ∧ Padded15 id pg ∧
    line = "rm " ++ pr ++ " " ++ pg ++ suffix ++ "\n"

/-- What the trace shows for one internet gateway `g`: a detach call that
failed with `e` and the line for `g` with the detach error's message, no
delete call; or a detach call that succeeded, a delete call that failed with
`e` and the line with the delete error's message; or a detach call and a
delete call that both succeeded and the line without suffix. -/
inductive GatewayReport (region vpc_id : String) (g : Option String) : List Event → Prop
  | detachFailed (e line : String)
      (h : RmLine region (awsStringValue g) (" (detach error: " ++ e ++ ")") line) :
    GatewayReport region vpc_id g
      [Event.call (Call.DetachInternetGateway g (some vpc_id)) (Reply.failed e),
       Event.stdout line]
  | deleteFailed (e line : String)
      (h : RmLine region (awsStringValue g) (" (error: " ++ e ++ ")") line) :
    GatewayReport region vpc_id g
      [Event.call (Call.DetachInternetGateway g (some vpc_id)) Reply.done,
       Event.call (Call.DeleteInternetGateway g) (Reply.failed e),
       Event.stdout line]
  | removed (line : String) (h : RmLine region (awsStringValue g) "" line) :
    GatewayReport region vpc_id g
      [Event.call (Call.DetachInternetGateway g (some vpc_id)) Reply.done,
       Event.call (Call.DeleteInternetGateway g) Reply.done,
       Event.stdout line]

/-- What the trace shows for one resource `g` of a kind removed by a single
delete call: the delete call with its reply and the line for `g`, with the
error's message when the delete failed and without suffix when it succeeded. -/
inductive DeleteReport (k : Kind) (region : String) (g : Option String) : List Event → Prop
  | deleteFailed (e line : String)
      (h : RmLine region (awsStringValue g) (" (error: " ++ e ++ ")") line) :
    DeleteReport k region g
      [Event.call (k.deleteCall g) (Reply.failed e), Event.stdout line]
  | removed (line : String) (h : RmLine region (awsStringValue g) "" line) :
    DeleteReport k region g
      [Event.call (k.deleteCall g) Reply.done, Event.stdout line]

/-! ## Sample providers -/

/-- A client with fixed answers: the account attributes, the resources listed
per kind, and the error (if any) each detach or delete call returns. -/
def stub (attrs : Except String DescribeAccountAttributesOutput)
    (list : Kind → Except String (List (Option String)))
    (fails : Call → Option String) : EC2 Unit where
  DescribeAccountAttributes := fun _ s => (attrs, s)
  DescribeInternetGateways := fun _ s => (list Kind.InternetGateway, s)
  DetachInternetGateway := fun g v s => (fails (Call.DetachInternetGateway g v), s)
  DeleteInternetGateway := fun g s => (fails (Call.DeleteInternetGateway g), s)
  DescribeSubnets := fun _ s => (list Kind.Subnet, s)
  DeleteSubnet := fun g s => (fails (Call.DeleteSubnet g), s)
  DescribeRouteTables := fun _ s => (list Kind.RouteTable, s)
  DeleteRouteTable := fun g s => (fails (Call.DeleteRouteTable g), s)
  DescribeNetworkAcls := fun _ s => (list Kind.NetworkAcl, s)
  DeleteNetworkAcl := fun g s => (fails (Call.DeleteNetworkAcl g), s)
  DescribeSecurityGroups := fun _ s => (list Kind.SecurityGroup, s)
  DeleteSecurityGroup := fun g s => (fails (Call.DeleteSecurityGroup g), s)
  DeleteVpc := fun g s => (fails (Call.DeleteVpc g), s)

/-- Account attributes naming `vpc-1` as the default VPC. -/
def vpc1Attrs : DescribeAccountAttributesOutput :=
  { AccountAttributes :=
      [{ AttributeName := some "default-vpc",
         AttributeValues := [{ AttributeValue := some "vpc-1" }] }] }

/-- The end-to-end scenario: VPC `vpc-1` with subnet `subnet-1`, whose delete
succeeds, and security group `sg-1`, whose delete fails with
`DependencyViolation`; `DeleteVpc` returns `vpcErr`. -/
def scenario (vpcErr : Option String) : EC2 Unit :=
  stub (Except.ok vpc1Attrs)
    (fun k => match k with
      | Kind.Subnet => Except.ok [some "subnet-1"]
      | Kind.SecurityGroup => Except.ok [some "sg-1"]
      | _ => Except.ok [])
    (fun c => match c with
      | Call.DeleteSecurityGroup _ => some "DependencyViolation"
      | Call.DeleteVpc _ => vpcErr
      | _ => none)

/-- A provider whose subnet listing fails and which has no other resources. -/
def subnetsUnlistable : EC2 Unit :=
  stub (Except.ok vpc1Attrs)
    (fun k => match k with
      | Kind.Subnet => Except.error "RequestLimitExceeded"
      | _ => Except.ok [])
    (fun _ => none)

/-- A provider with three internet gateways: the detach of `igw-a` fails, the
delete of `igw-b` fails, `igw-c` is removed. -/
def gateways : EC2 Unit :=
  stub (Except.ok vpc1Attrs)
    (fun k => match k with
      | Kind.InternetGateway => Except.ok [some "igw-a", some "igw-b", some "igw-c"]
      | _ => Except.ok [])
    (fun c => match c with
      | Call.DetachInternetGateway (some "igw-a") _ => some "Gateway.NotAttached"
      | Call.DeleteInternetGateway (some "igw-b") => some "DependencyViolation"
      | _ => none)

/-- A client whose state counts the detach and delete calls made so far:
the listings are fixed, and `fails c n` is the error returned to the call `c`
when `n` detach or delete calls were made before it. -/
def counting (attrs : Except String DescribeAccountAttributesOutput)
    (list : Kind → Except String (List (Option String)))
    (fails : Call → Nat → Option String) : EC2 Nat where
  DescribeAccountAttributes := fun _ s => (attrs, s)
  DescribeInternetGateways := fun _ s => (list Kind.InternetGateway, s)
  DetachInternetGateway := fun g v s => (fails (Call.DetachInternetGateway g v) s, s + 1)
  DeleteInternetGateway := fun g s => (fails (Call.DeleteInternetGateway g) s, s + 1)
  DescribeSubnets := fun _ s => (list Kind.Subnet, s)
  DeleteSubnet := fun g s => (fails (Call.DeleteSubnet g) s, s + 1)
  DescribeRouteTables := fun _ s => (list Kind.RouteTable, s)
  DeleteRouteTable := fun g s => (fails (Call.DeleteRouteTable g) s, s + 1)
  DescribeNetworkAcls := fun _ s => (list Kind.NetworkAcl, s)
  DeleteNetworkAcl := fun g s => (fails (Call.DeleteNetworkAcl g) s, s + 1)
  DescribeSecurityGroups := fun _ s => (list Kind.SecurityGroup, s)
  DeleteSecurityGroup := fun g s => (fails (Call.DeleteSecurityGroup g) s, s + 1)
  DeleteVpc := fun g s => (fails (Call.DeleteVpc g) s, s + 1)

/-- A provider with two subnets in which every other detach or delete call
fails, starting with the first: the delete of `subnet-1` fails, the delete of
`subnet-2` succeeds, `DeleteVpc` fails. -/
def everyOtherFails : EC2 Nat :=
  counting (Except.ok vpc1Attrs)
    (fun k => match k with
      | Kind.Subnet => Except.ok [some "subnet-1", some "subnet-2"]
      | _ => Except.ok [])
    (fun _ n => if n % 2 = 0 then some "DependencyViolation" else none)

/-- A provider with three internet gateways in which the first and the third
detach or delete call fail: the detach of `igw-a` fails, `igw-b` is detached
and its delete fails, `igw-c` is detached and deleted. -/
def gatewaysByCount : EC2 Nat :=
  counting (Except.ok vpc1Attrs)
    (fun k => match k with
      | Kind.InternetGateway => Except.ok [some "igw-a", some "igw-b", some "igw-c"]
      | _ => Except.ok [])
    (fun _ n => if n = 0 then some "Gateway.NotAttached"
      else if n = 2 then some "DependencyViolation" else none)

/-- A provider whose account-attribute lookup fails. -/
def lookupFails : EC2 Unit :=
  stub (Except.error "AuthFailure") (fun _ => Except.ok []) (fun _ => none)

/-- A provider whose lookup succeeds with no account-attribute record. -/
def noAttributeRecord : EC2 Unit :=
  stub (Except.ok { AccountAttributes := [] }) (fun _ => Except.ok []) (fun _ => none)

/-- A provider whose lookup succeeds with a record that has no attribute value. -/
def noAttributeValue : EC2 Unit :=
  stub (Except.ok { AccountAttributes :=
      [{ AttributeName := some "default-vpc", AttributeValues := [] }] })
    (fun _ => Except.ok []) (fun _ => none)

/-! ## Lemmas -/

theorem deleteEach_steps {σ : Type} (k : Kind) (del : Option String → σ → Option String × σ)
    (region : String) (rs : List (Option String)) (s : σ) :
    ∃ blocks, (deleteEach del k.deleteCall region rs s).2 = blocks.flatten ∧
      List.Forall₂ (DeleteSteps k region) rs blocks := by
  induction rs generalizing s with
  | nil => exact ⟨[], rfl, List.Forall₂.nil⟩
  | cons g rest ih =>
    obtain ⟨blocks, hb, hf⟩ := ih (del g s).2
    cases h : (del g s).1 with
    | none =>
      refine ⟨[Event.call (k.deleteCall g) Reply.done,
        Event.stdout (rmLine region (awsStringValue g) "")] :: blocks, ?_,
        List.Forall₂.cons DeleteSteps.removed hf⟩
      simp [deleteEach, h, hb, Reply.ofErr]
    | some e =>
      refine ⟨[Event.call (k.deleteCall g) (Reply.failed e),
        Event.stdout (rmLine region (awsStringValue g) (errorSuffix e))] :: blocks, ?_,
        List.Forall₂.cons (DeleteSteps.deleteFailed e) hf⟩
      simp [deleteEach, h, hb, Reply.ofErr]

theorem detachDeleteEach_steps {σ : Type} (svc : EC2 σ) (vpc_id region : String)
    (rs : List (Option String)) (s : σ) :
    ∃ blocks, (detachDeleteEach svc vpc_id region rs s).2 = blocks.flatten ∧
      List.Forall₂ (GatewaySteps region vpc_id) rs blocks := by
  induction rs generalizing s with
  | nil => exact ⟨[], rfl, List.Forall₂.nil⟩
  | cons g rest ih =>
    cases h : (svc.DetachInternetGateway g (some vpc_id) s).1 with
    | some e =>
      obtain ⟨blocks, hb, hf⟩ := ih (svc.DetachInternetGateway g (some vpc_id) s).2
      refine ⟨_ :: blocks, ?_, List.Forall₂.cons (GatewaySteps.detachFailed e) hf⟩
      simp [detachDeleteEach, h, hb, Reply.ofErr, awsString]
    | none =>
      obtain ⟨blocks, hb, hf⟩ := ih (svc.DeleteInternetGateway g
        (svc.DetachInternetGateway g (some vpc_id) s).2).2
      cases h2 : (svc.DeleteInternetGateway g
          (svc.DetachInternetGateway g (some vpc_id) s).2).1 with
      | some e =>
        refine ⟨_ :: blocks, ?_, List.Forall₂.cons (GatewaySteps.deleteFailed e) hf⟩
        simp [detachDeleteEach, h, h2, hb, Reply.ofErr, awsString]
      | none =>
        refine ⟨_ :: blocks, ?_, List.Forall₂.cons GatewaySteps.removed hf⟩
        simp [detachDeleteEach, h, h2, hb, Reply.ofErr, awsString]

/-- Every phase function produces a trace of the phase shape, from any state. -/
theorem run_phaseTrace {σ : Type} (k : Kind) (svc : EC2 σ) (vpc_id region : String) (s : σ) :
    PhaseTrace k region vpc_id (k.run svc vpc_id region s).2 := by
  cases k
  case InternetGateway =>
    cases h : (svc.DescribeInternetGateways (makeEC2Filters "attachment.vpc-id" vpc_id) s).1 with
    | error e =>
      simp only [makeEC2Filters, awsString] at h
      left
      exact ⟨e, by simp [Kind.run, rmIgws, h, Kind.listCall, Kind.filters, Kind.filterName,
        makeEC2Filters, awsString, Kind.what]⟩
    | ok rs =>
      right
      simp only [makeEC2Filters, awsString] at h
      obtain ⟨blocks, hb, hf⟩ := detachDeleteEach_steps svc vpc_id region rs
        (svc.DescribeInternetGateways (makeEC2Filters "attachment.vpc-id" vpc_id) s).2
      simp only [makeEC2Filters, awsString] at hb
      exact ⟨rs, blocks, by simp [Kind.run, rmIgws, h, hb, Kind.listCall, Kind.filters,
        Kind.filterName, makeEC2Filters, awsString], hf⟩
  case Subnet =>
    cases h : (svc.DescribeSubnets (makeEC2Filters "vpc-id" vpc_id) s).1 with
    | error e =>
      simp only [makeEC2Filters, awsString] at h
      left
      exact ⟨e, by simp [Kind.run, rmSubns, h, Kind.listCall, Kind.filters, Kind.filterName,
        makeEC2Filters, awsString, Kind.what]⟩
    | ok rs =>
      right
      simp only [makeEC2Filters, awsString] at h
      obtain ⟨blocks, hb, hf⟩ := deleteEach_steps Kind.Subnet svc.DeleteSubnet region rs
        (svc.DescribeSubnets (makeEC2Filters "vpc-id" vpc_id) s).2
      simp only [makeEC2Filters, awsString] at hb
      exact ⟨rs, blocks, by simpa [Kind.run, rmSubns, h, Kind.listCall, Kind.filters,
        Kind.filterName, makeEC2Filters, awsString, Kind.deleteCall] using hb, hf⟩
  case RouteTable =>
    cases h : (svc.DescribeRouteTables (makeEC2Filters "vpc-id" vpc_id) s).1 with
    | error e =>
      simp only [makeEC2Filters, awsString] at h
      left
      exact ⟨e, by simp [Kind.run, rmRtbs, h, Kind.listCall, Kind.filters, Kind.filterName,
        makeEC2Filters, awsString, Kind.what]⟩
    | ok rs =>
      right
      simp only [makeEC2Filters, awsString] at h
      obtain ⟨blocks, hb, hf⟩ := deleteEach_steps Kind.RouteTable svc.DeleteRouteTable region rs
        (svc.DescribeRouteTables (makeEC2Filters "vpc-id" vpc_id) s).2
      simp only [makeEC2Filters, awsString] at hb
      exact ⟨rs, blocks, by simpa [Kind.run, rmRtbs, h, Kind.listCall, Kind.filters,
        Kind.filterName, makeEC2Filters, awsString, Kind.deleteCall] using hb, hf⟩
  case NetworkAcl =>
    cases h : (svc.DescribeNetworkAcls (makeEC2Filters "vpc-id" vpc_id) s).1 with
    | error e =>
      simp only [makeEC2Filters, awsString] at h
      left
      exact ⟨e, by simp [Kind.run, rmAcls, h, Kind.listCall, Kind.filters, Kind.filterName,
        makeEC2Filters, awsString, Kind.what]⟩
    | ok rs =>
      right
      simp only [makeEC2Filters, awsString] at h
      obtain ⟨blocks, hb, hf⟩ := deleteEach_steps Kind.NetworkAcl svc.DeleteNetworkAcl region rs
        (svc.DescribeNetworkAcls (makeEC2Filters "vpc-id" vpc_id) s).2
      simp only [makeEC2Filters, awsString] at hb
      exact ⟨rs, blocks, by simpa [Kind.run, rmAcls, h, Kind.listCall, Kind.filters,
        Kind.filterName, makeEC2Filters, awsString, Kind.deleteCall] using hb, hf⟩
  case SecurityGroup =>
    cases h : (svc.DescribeSecurityGroups (makeEC2Filters "vpc-id" vpc_id) s).1 with
    | error e =>
      simp only [makeEC2Filters, awsString] at h
      left
      exact ⟨e, by simp [Kind.run, rmSgs, h, Kind.listCall, Kind.filters, Kind.filterName,
        makeEC2Filters, awsString, Kind.what]⟩
    | ok rs =>
      right
      simp only [makeEC2Filters, awsString] at h
      obtain ⟨blocks, hb, hf⟩ := deleteEach_steps Kind.SecurityGroup svc.DeleteSecurityGroup
        region rs (svc.DescribeSecurityGroups (makeEC2Filters "vpc-id" vpc_id) s).2
      simp only [makeEC2Filters, awsString] at hb
      exact ⟨rs, blocks, by simpa [Kind.run, rmSgs, h, Kind.listCall, Kind.filters,
        Kind.filterName, makeEC2Filters, awsString, Kind.deleteCall] using hb, hf⟩

theorem Kind.listCall_lists (k : Kind) (f : List Filter) : (k.listCall f).lists? = some (k, f) := by
  cases k <;> rfl

theorem Kind.listCall_phase (k : Kind) (f : List Filter) : (k.listCall f).phase = k.index := by
  cases k <;> rfl

theorem Kind.listCall_target (k : Kind) (f : List Filter) : (k.listCall f).target? = none := by
  cases k <;> rfl

theorem Call.phase_of_target {c : Call} {k : Kind} {g : Option String}
    (h : c.target? = some (k, g)) : c.phase = k.index := by
  cases c <;> simp [Call.target?] at h <;> obtain ⟨rfl, _⟩ := h <;> rfl

theorem Call.lists_of_target {c : Call} {k : Kind} {g : Option String}
    (h : c.target? = some (k, g)) : c.lists? = none := by
  cases c <;> simp [Call.target?] at h <;> rfl

theorem Steps.calls_target {k : Kind} {region vpc_id : String} {g : Option String}
    {b : List Event} (h : Steps k region vpc_id g b) :
    ∀ c ∈ callsOf b, c.target? = some (k, g) := by
  cases k <;> cases h <;>
    simp [callsOf, Event.call?, Call.target?, Kind.deleteCall]

theorem Steps.not_listed {k : Kind} {region vpc_id : String} {g : Option String}
    {b : List Event} (h : Steps k region vpc_id g b) (c : Call) (rs : List (Option String)) :
    Event.call c (Reply.listed rs) ∉ b := by
  cases k <;> cases h <;> simp

theorem Steps.calls_simple {k : Kind} {region vpc_id : String} {g : Option String}
    {b : List Event} (hk : k ≠ Kind.InternetGateway) (h : Steps k region vpc_id g b) :
    callsOf b = [k.deleteCall g] := by
  cases k <;> first | exact absurd rfl hk | (cases h <;> simp [callsOf, Event.call?])

theorem mem_flatten_of_forall₂ {α β : Type} {R : α → List β → Prop} {rs : List α}
    {blocks : List (List β)} (h : List.Forall₂ R rs blocks) {e : β} (he : e ∈ blocks.flatten) :
    ∃ g ∈ rs, ∃ b, R g b ∧ e ∈ b := by
  induction h with
  | nil => simp at he
  | @cons g b rs1 bs1 hr _ ih =>
    rw [List.flatten_cons, List.mem_append] at he
    rcases he with he | he
    · exact ⟨g, List.mem_cons_self _ _, b, hr, he⟩
    · obtain ⟨g1, hg1, b1, hb1, he1⟩ := ih he
      exact ⟨g1, List.mem_cons_of_mem _ hg1, b1, hb1, he1⟩

theorem flatten_map_of_forall₂ {α β γ : Type} {R : α → List β → Prop} {rs : List α}
    {blocks : List (List β)} (h : List.Forall₂ R rs blocks) (f : List β → List γ)
    (w : α → List γ) (hw : ∀ g b, R g b → f b = w g) :
    (blocks.map f).flatten = (rs.map w).flatten := by
  induction h with
  | nil => rfl
  | cons hr _ ih =>
    simp only [List.map_cons, List.flatten_cons, ih, hw _ _ hr]

theorem callsOf_append (a b : List Event) : callsOf (a ++ b) = callsOf a ++ callsOf b := by
  simp [callsOf]

theorem stdoutOf_append (a b : List Event) : stdoutOf (a ++ b) = stdoutOf a ++ stdoutOf b := by
  simp [stdoutOf]

theorem mem_callsOf {c : Call} {t : List Event} : c ∈ callsOf t ↔ ∃ r, Event.call c r ∈ t := by
  constructor
  · intro h
    obtain ⟨e, he, hc⟩ := List.mem_filterMap.mp h
    cases e <;> simp [Event.call?] at hc
    subst hc
    exact ⟨_, he⟩
  · rintro ⟨r, hr⟩
    exact List.mem_filterMap.mpr ⟨_, hr, rfl⟩

/-- The calls of a phase: its list call, then only detach/delete calls of its
own kind on ids the list call returned. -/
theorem PhaseTrace.calls {k : Kind} {region vpc_id : String} {t : List Event}
    (h : PhaseTrace k region vpc_id t) :
    ∃ rest, callsOf t = k.listCall (k.filters vpc_id) :: rest ∧
      ∀ c ∈ rest, ∃ g, c.target? = some (k, g) ∧
        ∃ rs, Event.call (k.listCall (k.filters vpc_id)) (Reply.listed rs) ∈ t ∧ g ∈ rs := by
  rcases h with ⟨e, rfl⟩ | ⟨rs, blocks, rfl, hf⟩
  · exact ⟨[], by simp [callsOf, Event.call?], by simp⟩
  · refine ⟨callsOf blocks.flatten, by simp [callsOf, Event.call?], ?_⟩
    intro c hc
    obtain ⟨r, hr⟩ := mem_callsOf.mp hc
    obtain ⟨g, hg, b, hb, hmem⟩ := mem_flatten_of_forall₂ hf hr
    exact ⟨g, hb.calls_target c (mem_callsOf.mpr ⟨r, hmem⟩), rs, List.mem_cons_self _ _, hg⟩

theorem PhaseTrace.phase_eq {k : Kind} {region vpc_id : String} {t : List Event}
    (h : PhaseTrace k region vpc_id t) : ∀ c ∈ callsOf t, c.phase = k.index := by
  obtain ⟨rest, hc, hrest⟩ := h.calls
  intro c hmem
  rw [hc] at hmem
  rcases List.mem_cons.mp hmem with rfl | hmem
  · exact Kind.listCall_phase _ _
  · obtain ⟨g, hg, _⟩ := hrest c hmem
    exact Call.phase_of_target hg

/-- A phase whose list call answered `rs` is that list call followed by the
events of each resource of `rs`. -/
theorem PhaseTrace.of_listed {j k : Kind} {region vpc_id : String} {t : List Event}
    (h : PhaseTrace j region vpc_id t) {f : List Filter} {rs : List (Option String)}
    (hmem : Event.call (k.listCall f) (Reply.listed rs) ∈ t) :
    j = k ∧ ∃ blocks, t = Event.call (k.listCall (k.filters vpc_id)) (Reply.listed rs)
        :: blocks.flatten ∧ List.Forall₂ (Steps k region vpc_id) rs blocks := by
  rcases h with ⟨e, rfl⟩ | ⟨rs1, blocks, rfl, hf⟩
  · simp at hmem
  · rcases List.mem_cons.mp hmem with heq | hmem
    · injection heq with hc hr
      injection hr with hr
      subst hr
      have hl := congrArg Call.lists? hc
      rw [Kind.listCall_lists, Kind.listCall_lists] at hl
      injection hl with hl
      injection hl with hkj _
      subst hkj
      exact ⟨rfl, blocks, rfl, hf⟩
    · obtain ⟨g, _, b, hb, hin⟩ := mem_flatten_of_forall₂ hf hmem
      exact absurd hin (hb.not_listed _ _)

/-- The calls of a single-delete phase whose list call answered `rs`. -/
theorem calls_of_simple_blocks {k : Kind} {region vpc_id : String}
    {rs : List (Option String)} {blocks : List (List Event)}
    (hk : k ≠ Kind.InternetGateway) (hf : List.Forall₂ (Steps k region vpc_id) rs blocks) :
    callsOf blocks.flatten = rs.map k.deleteCall := by
  have h := flatten_map_of_forall₂ hf callsOf (fun g => [k.deleteCall g])
    (fun g b hb => Steps.calls_simple hk hb)
  rw [callsOf, List.filterMap_flatten]
  rw [show List.map (List.filterMap Event.call?) blocks = List.map callsOf blocks from rfl, h]
  clear h hf
  induction rs with
  | nil => rfl
  | cons a l ih => simpa using ih

theorem regionTask_trace {σ : Type} (svc : EC2 σ) (region : String) (s : σ)
    (attrs : DescribeAccountAttributesOutput) (v : String)
    (hlookup : (svc.DescribeAccountAttributes [some "default-vpc"] s).1 = Except.ok attrs)
    (hvpc : defaultVpcId attrs = some v) :
    TaskTrace region v attrs (regionTask svc region s).events ∧
      (regionTask svc region s).outcome = Outcome.returned := by
  let s0 := (svc.DescribeAccountAttributes [some "default-vpc"] s).2
  let s1 := (rmIgws svc v region s0).1
  let s2 := (rmSubns svc v region s1).1
  let s3 := (rmRtbs svc v region s2).1
  let s4 := (rmAcls svc v region s3).1
  let s5 := (rmSgs svc v region s4).1
  let st : Kind → σ := fun k => match k with
    | Kind.InternetGateway => s0
    | Kind.Subnet => s1
    | Kind.RouteTable => s2
    | Kind.NetworkAcl => s3
    | Kind.SecurityGroup => s4
  refine ⟨⟨fun k => (k.run svc v region (st k)).2, (svc.DeleteVpc (some v) s5).1, ?_,
    fun k => run_phaseTrace k svc v region (st k)⟩, ?_⟩
  · simp [regionTask, awsString, hlookup, hvpc, rmVpc, suffixOf, lookupEvent, vpcEvents,
      Kind.run, st, s0, s1, s2, s3, s4, s5]
  · simp [regionTask, awsString, hlookup, hvpc]

theorem mem_phases {α : Type} (ps : Kind → List α) (e : α) :
    e ∈ ps Kind.InternetGateway ++ ps Kind.Subnet ++ ps Kind.RouteTable ++
        ps Kind.NetworkAcl ++ ps Kind.SecurityGroup ↔ ∃ k, e ∈ ps k := by
  simp only [List.mem_append]
  constructor
  · rintro ((((h | h) | h) | h) | h) <;> exact ⟨_, h⟩
  · rintro ⟨k, h⟩
    cases k <;> simp [h]

theorem TaskTrace.callsOf_eq {region v : String} {attrs : DescribeAccountAttributesOutput}
    {t : List Event} (h : TaskTrace region v attrs t) :
    ∃ cs : Kind → List Call,
      callsOf t = Call.DescribeAccountAttributes [some "default-vpc"]
        :: (cs Kind.InternetGateway ++ cs Kind.Subnet ++ cs Kind.RouteTable ++
            cs Kind.NetworkAcl ++ cs Kind.SecurityGroup ++ [Call.DeleteVpc (some v)]) ∧
      (∀ k, ∀ c ∈ cs k, c.phase = k.index) ∧
      (∀ k, (cs k).filter Call.opensPhase = [k.listCall (k.filters v)]) := by
  obtain ⟨ps, err, rfl, hps⟩ := h
  have key : ∀ (k : Kind) (p : List Event), PhaseTrace k region v p →
      (callsOf p).filter Call.opensPhase = [k.listCall (k.filters v)] := by
    intro k p hp
    obtain ⟨rest, hc, hrest⟩ := hp.calls
    rw [hc, List.filter_cons]
    have h0 : (k.listCall (k.filters v)).opensPhase = true := by
      simp [Call.opensPhase, Kind.listCall_lists]
    rw [if_pos h0]
    congr 1
    apply List.filter_eq_nil_iff.mpr
    intro c hcm
    obtain ⟨g, hg, _⟩ := hrest c hcm
    have hp := Call.phase_of_target hg
    have hl := Call.lists_of_target hg
    have : k.index ≠ 6 := by cases k <;> simp [Kind.index]
    simp [Call.opensPhase, hl, hp, this]
  refine ⟨fun k => callsOf (ps k), ?_, fun k => (hps k).phase_eq, fun k => key _ _ (hps k)⟩
  simp [callsOf, Event.call?, lookupEvent, vpcEvents]

theorem pairwise_phase_of_const {l : List Call} {n : Nat} (h : ∀ c ∈ l, c.phase = n) :
    l.Pairwise (fun a b => a.phase ≤ b.phase) :=
  List.pairwise_of_forall_mem_list (fun a ha b hb => by rw [h a ha, h b hb])

theorem pairwise_phase_append {l1 l2 : List Call} (n : Nat)
    (p1 : l1.Pairwise (fun a b => a.phase ≤ b.phase))
    (p2 : l2.Pairwise (fun a b => a.phase ≤ b.phase))
    (b1 : ∀ c ∈ l1, c.phase ≤ n) (b2 : ∀ c ∈ l2, n ≤ c.phase) :
    (l1 ++ l2).Pairwise (fun a b => a.phase ≤ b.phase) :=
  List.pairwise_append.mpr ⟨p1, p2, fun a ha b hb => le_trans (b1 a ha) (b2 b hb)⟩

theorem phase_le_append {l1 l2 : List Call} {n : Nat}
    (b1 : ∀ c ∈ l1, c.phase ≤ n) (b2 : ∀ c ∈ l2, c.phase ≤ n) :
    ∀ c ∈ l1 ++ l2, c.phase ≤ n := by
  intro c hc
  rcases List.mem_append.mp hc with h | h
  · exact b1 c h
  · exact b2 c h

/-- The calls of a task that resolved the VPC id are ordered by phase. -/
theorem TaskTrace.pairwise {region v : String} {attrs : DescribeAccountAttributesOutput}
    {t : List Event} (h : TaskTrace region v attrs t) :
    (callsOf t).Pairwise (fun a b => a.phase ≤ b.phase) := by
  obtain ⟨cs, hc, hph, _⟩ := h.callsOf_eq
  rw [hc]
  have h1 := hph Kind.InternetGateway
  have h2 := hph Kind.Subnet
  have h3 := hph Kind.RouteTable
  have h4 := hph Kind.NetworkAcl
  have h5 := hph Kind.SecurityGroup
  simp only [Kind.index] at h1 h2 h3 h4 h5
  have le1 : ∀ c ∈ cs Kind.InternetGateway, c.phase ≤ 1 := fun c hc => le_of_eq (h1 c hc)
  have le2 := phase_le_append (n := 2) (fun c hc => by rw [h1 c hc]; decide)
    (fun c hc => le_of_eq (h2 c hc))
  have le3 := phase_le_append (n := 3) (fun c hc => le_trans (le2 c hc) (by decide))
    (fun c hc => le_of_eq (h3 c hc))
  have le4 := phase_le_append (n := 4) (fun c hc => le_trans (le3 c hc) (by decide))
    (fun c hc => le_of_eq (h4 c hc))
  have le5 := phase_le_append (n := 5) (fun c hc => le_trans (le4 c hc) (by decide))
    (fun c hc => le_of_eq (h5 c hc))
  have q2 := pairwise_phase_append 1 (pairwise_phase_of_const h1) (pairwise_phase_of_const h2)
    le1 (fun c hc => by rw [h2 c hc]; decide)
  have q3 := pairwise_phase_append 2 q2 (pairwise_phase_of_const h3)
    le2 (fun c hc => by rw [h3 c hc]; decide)
  have q4 := pairwise_phase_append 3 q3 (pairwise_phase_of_const h4)
    le3 (fun c hc => by rw [h4 c hc]; decide)
  have q5 := pairwise_phase_append 4 q4 (pairwise_phase_of_const h5)
    le4 (fun c hc => by rw [h5 c hc]; decide)
  have q6 := @pairwise_phase_append _ [Call.DeleteVpc (some v)] 5 q5
    (List.pairwise_singleton _ _) le5
    (fun c hc => by rw [List.mem_singleton.mp hc]; simp [Call.phase])
  exact List.pairwise_cons.mpr ⟨fun c _ => Nat.zero_le _, q6⟩

/-- The first calls of the phases of a task that resolved the VPC id: each
list call once, in the teardown order, then `DeleteVpc`. -/
theorem TaskTrace.skeleton {region v : String} {attrs : DescribeAccountAttributesOutput}
    {t : List Event} (h : TaskTrace region v attrs t) :
    (callsOf t).filter Call.opensPhase =
      [Call.DescribeInternetGateways (Kind.InternetGateway.filters v),
       Call.DescribeSubnets (Kind.Subnet.filters v),
       Call.DescribeRouteTables (Kind.RouteTable.filters v),
       Call.DescribeNetworkAcls (Kind.NetworkAcl.filters v),
       Call.DescribeSecurityGroups (Kind.SecurityGroup.filters v),
       Call.DeleteVpc (some v)] := by
  obtain ⟨cs, hc, _, hf⟩ := h.callsOf_eq
  rw [hc]
  simp [List.filter_cons, List.filter_append, hf, Call.opensPhase, Call.lists?,
    Call.phase, Kind.listCall]

theorem run_of_list_error {σ : Type} (svc : EC2 σ) (k : Kind) (vpc_id region : String) (s : σ)
    (e : String) (hlist : (k.describe svc (k.filters vpc_id) s).1 = Except.error e) :
    k.run svc vpc_id region s =
      ((k.describe svc (k.filters vpc_id) s).2,
       [Event.call (k.listCall (k.filters vpc_id)) (Reply.failed e),
        Event.stderr (listErrorLine k.what region vpc_id e)]) := by
  cases k <;>
    simp only [Kind.describe, Kind.filters, Kind.filterName] at hlist <;>
    simp [Kind.run, rmIgws, rmSubns, rmRtbs, rmAcls, rmSgs, Kind.describe, Kind.filters,
      Kind.filterName, Kind.listCall, Kind.what, makeEC2Filters, awsString, hlist]

theorem run_of_list_ok {σ : Type} (svc : EC2 σ) (k : Kind) (vpc_id region : String) (s : σ)
    (rs : List (Option String)) (hlist : (k.describe svc (k.filters vpc_id) s).1 = Except.ok rs) :
    ∃ blocks, (k.run svc vpc_id region s).2 =
        Event.call (k.listCall (k.filters vpc_id)) (Reply.listed rs) :: blocks.flatten ∧
      List.Forall₂ (Steps k region vpc_id) rs blocks := by
  have hmem : Event.call (k.listCall (k.filters vpc_id)) (Reply.listed rs) ∈
      (k.run svc vpc_id region s).2 := by
    cases k <;>
      simp only [Kind.describe, Kind.filters, Kind.filterName] at hlist <;>
      simp [Kind.run, rmIgws, rmSubns, rmRtbs, rmAcls, rmSgs, Kind.filters,
        Kind.filterName, Kind.listCall, makeEC2Filters, awsString, hlist]
  exact ((run_phaseTrace k svc vpc_id region s).of_listed hmem).2

theorem filter_phase_of_const {l : List Call} {n : Nat} (m : Nat) (h : ∀ c ∈ l, c.phase = n) :
    l.filter (fun c => decide (c.phase = m)) = if n = m then l else [] := by
  by_cases hnm : n = m
  · rw [if_pos hnm]
    apply List.filter_eq_self.mpr
    intro c hc
    simp [h c hc, hnm]
  · rw [if_neg hnm]
    apply List.filter_eq_nil_iff.mpr
    intro c hc
    simp [h c hc, hnm]

/-- A call of a task that resolved the VPC id is the lookup, `DeleteVpc`, or a
call of one of its phases. -/
theorem TaskTrace.mem_call {region v : String} {attrs : DescribeAccountAttributesOutput}
    {t : List Event} (h : TaskTrace region v attrs t) {c : Call} (hc : c ∈ callsOf t) :
    (c.lists? = none ∧ c.target? = none ∧ ∀ g w, c ≠ Call.DetachInternetGateway g w) ∨
    ∃ k p, PhaseTrace k region v p ∧ (∀ e ∈ p, e ∈ t) ∧ c ∈ callsOf p := by
  obtain ⟨ps, err, rfl, hps⟩ := h
  obtain ⟨r, hr⟩ := mem_callsOf.mp hc
  rcases List.mem_cons.mp hr with heq | hmem
  · injection heq with hc0 _
    subst hc0
    exact Or.inl ⟨rfl, rfl, fun _ _ => by simp⟩
  · rcases List.mem_append.mp hmem with hmem | hmem
    · obtain ⟨k, hk⟩ := (mem_phases ps _).mp hmem
      refine Or.inr ⟨k, ps k, hps k, fun e he => ?_, mem_callsOf.mpr ⟨r, hk⟩⟩
      exact List.mem_cons_of_mem _ (List.mem_append_left _ ((mem_phases ps e).mpr ⟨k, he⟩))
    · simp only [vpcEvents, List.mem_cons, List.mem_singleton, List.not_mem_nil, or_false] at hmem
      rcases hmem with heq | heq
      · injection heq with hc0 _
        subst hc0
        exact Or.inl ⟨rfl, rfl, fun _ _ => by simp⟩
      · cases heq

theorem PhaseTrace.detach_vpc {k : Kind} {region vpc_id : String} {t : List Event}
    (h : PhaseTrace k region vpc_id t) {g w : Option String}
    (hc : Call.DetachInternetGateway g w ∈ callsOf t) : w = some vpc_id := by
  obtain ⟨r, hr⟩ := mem_callsOf.mp hc
  rcases h with ⟨e, rfl⟩ | ⟨rs, blocks, rfl, hf⟩
  · cases k <;> simp [Kind.listCall] at hr
  · rcases List.mem_cons.mp hr with heq | hmem
    · cases k <;> simp [Kind.listCall] at heq
    · obtain ⟨g1, _, b, hb, hin⟩ := mem_flatten_of_forall₂ hf hmem
      cases k <;> cases hb <;> simp [Kind.deleteCall] at hin <;> simp [hin]

/-- The calls of one phase of a task are those of the task that belong to it. -/
theorem TaskTrace.filter_phase {region v : String} {attrs : DescribeAccountAttributesOutput}
    {t : List Event} (h : TaskTrace region v attrs t) (k : Kind) {f : List Filter}
    {rs : List (Option String)} (hmem : Event.call (k.listCall f) (Reply.listed rs) ∈ t) :
    ∃ blocks, List.Forall₂ (Steps k region v) rs blocks ∧
      (callsOf t).filter (fun c => decide (c.phase = k.index)) =
        k.listCall (k.filters v) :: callsOf blocks.flatten := by
  obtain ⟨ps, err, rfl, hps⟩ := h
  have hin : Event.call (k.listCall f) (Reply.listed rs) ∈ ps k := by
    rcases List.mem_cons.mp hmem with heq | hmem
    · cases k <;> simp [lookupEvent, Kind.listCall] at heq
    · rcases List.mem_append.mp hmem with hmem | hmem
      · obtain ⟨j, hj⟩ := (mem_phases ps _).mp hmem
        obtain ⟨rfl, _⟩ := (hps j).of_listed hj
        exact hj
      · cases k <;> simp [vpcEvents, Kind.listCall] at hmem
  obtain ⟨_, blocks, hb, hf⟩ := (hps k).of_listed hin
  refine ⟨blocks, hf, ?_⟩
  have hfil : ∀ j, (callsOf (ps j)).filter (fun c => decide (c.phase = k.index)) =
      if j.index = k.index then callsOf (ps j) else [] :=
    fun j => filter_phase_of_const k.index (hps j).phase_eq
  have hk : callsOf (ps k) = k.listCall (k.filters v) :: callsOf blocks.flatten := by
    rw [hb]; simp [callsOf, Event.call?]
  have hcalls : callsOf (lookupEvent attrs :: (ps Kind.InternetGateway ++ ps Kind.Subnet ++
      ps Kind.RouteTable ++ ps Kind.NetworkAcl ++ ps Kind.SecurityGroup ++
      vpcEvents region v err)) =
      Call.DescribeAccountAttributes [some "default-vpc"] ::
        (callsOf (ps Kind.InternetGateway) ++ callsOf (ps Kind.Subnet) ++
         callsOf (ps Kind.RouteTable) ++ callsOf (ps Kind.NetworkAcl) ++
         callsOf (ps Kind.SecurityGroup) ++ [Call.DeleteVpc (some v)]) := by
    simp [callsOf, Event.call?, lookupEvent, vpcEvents]
  rw [hcalls]
  simp only [List.filter_cons, List.filter_append, hfil, List.filter_nil]
  cases k <;> simp [Kind.index, Call.phase, hk]

theorem attemptsOf_append (a b : List Event) :
    attemptsOf (a ++ b) = attemptsOf a ++ attemptsOf b := by
  simp [attemptsOf]

theorem listedOf_append (a b : List Event) : listedOf (a ++ b) = listedOf a ++ listedOf b := by
  simp [listedOf]

theorem paren_append_ne_empty (x : String) : " (" ++ x ≠ "" := by
  intro h
  have h2 := congrArg String.length h
  simp only [String.length_append] at h2
  have h3 : " (".length = 2 := by decide
  have h4 : "".length = 0 := by decide
  omega

theorem lineFor_ok (region id : String) :
    LineFor region { id := id, error := none } (rmLine region id "") :=
  ⟨"", rfl, Or.inl ⟨rfl, rfl⟩⟩

theorem lineFor_error (region id e : String) :
    LineFor region { id := id, error := some e } (rmLine region id (errorSuffix e)) := by
  refine ⟨errorSuffix e, rfl, Or.inr ⟨e, "error: ", rfl, ?_, ?_⟩⟩
  · simp [errorSuffix, String.append_assoc]
  · simp only [errorSuffix, String.append_assoc]
    exact paren_append_ne_empty _

theorem lineFor_detach_error (region id e : String) :
    LineFor region { id := id, error := some e } (rmLine region id (detachErrorSuffix e)) := by
  refine ⟨detachErrorSuffix e, rfl, Or.inr ⟨e, "detach error: ", rfl, ?_, ?_⟩⟩
  · simp [detachErrorSuffix, String.append_assoc]
  · simp only [detachErrorSuffix, String.append_assoc]
    exact paren_append_ne_empty _

theorem Steps.attempt {k : Kind} {region vpc_id : String} {g : Option String}
    {b : List Event} (h : Steps k region vpc_id g b) :
    ∃ a line, attemptsOf b = [a] ∧ a.id = awsStringValue g ∧ stdoutOf b = [line] ∧
      LineFor region a line ∧ listedOf b = [] := by
  cases k <;> cases h <;>
    first
    | exact ⟨_, _, rfl, rfl, rfl, lineFor_ok _ _, rfl⟩
    | exact ⟨_, _, rfl, rfl, rfl, lineFor_error _ _ _, rfl⟩
    | exact ⟨_, _, rfl, rfl, rfl, lineFor_detach_error _ _ _, rfl⟩

theorem attempts_of_blocks {k : Kind} {region vpc_id : String} {rs : List (Option String)}
    {blocks : List (List Event)} (hf : List.Forall₂ (Steps k region vpc_id) rs blocks) :
    List.Forall₂ (LineFor region) (attemptsOf blocks.flatten) (stdoutOf blocks.flatten) ∧
    (attemptsOf blocks.flatten).map Attempt.id = rs.map awsStringValue ∧
    listedOf blocks.flatten = [] := by
  induction hf with
  | nil => exact ⟨List.Forall₂.nil, rfl, rfl⟩
  | @cons g b rs1 bs1 hr _ ih =>
    obtain ⟨a, line, ha, hid, hl, hline, hlist⟩ := hr.attempt
    obtain ⟨i1, i2, i3⟩ := ih
    rw [List.flatten_cons, attemptsOf_append, stdoutOf_append, listedOf_append, ha, hl, hlist]
    exact ⟨List.Forall₂.cons hline i1, by simp [hid, i2], by simp [i3]⟩

theorem PhaseTrace.lines_of_phase {k : Kind} {region vpc_id : String} {p : List Event}
    (h : PhaseTrace k region vpc_id p) :
    List.Forall₂ (LineFor region) (attemptsOf p) (stdoutOf p) ∧
    (attemptsOf p).map Attempt.id = (listedOf p).map awsStringValue := by
  rcases h with ⟨e, rfl⟩ | ⟨rs, blocks, rfl, hf⟩
  · cases k <;> exact ⟨List.Forall₂.nil, rfl⟩
  · obtain ⟨i1, i2, i3⟩ := attempts_of_blocks hf
    have ha : attemptsOf (Event.call (k.listCall (k.filters vpc_id)) (Reply.listed rs)
        :: blocks.flatten) = attemptsOf blocks.flatten := by
      cases k <;> rfl
    have hs : stdoutOf (Event.call (k.listCall (k.filters vpc_id)) (Reply.listed rs)
        :: blocks.flatten) = stdoutOf blocks.flatten := rfl
    have hl : listedOf (Event.call (k.listCall (k.filters vpc_id)) (Reply.listed rs)
        :: blocks.flatten) = rs ++ listedOf blocks.flatten := rfl
    rw [ha, hs, hl, i3, List.append_nil]
    exact ⟨i1, i2⟩

theorem TaskTrace.lines_match {region v : String} {attrs : DescribeAccountAttributesOutput}
    {t : List Event} (h : TaskTrace region v attrs t) :
    List.Forall₂ (LineFor region) (attemptsOf t) (stdoutOf t) ∧
    (attemptsOf t).map Attempt.id = (listedOf t).map awsStringValue ++ [v] := by
  obtain ⟨ps, err, rfl, hps⟩ := h
  obtain ⟨a1, b1⟩ := (hps Kind.InternetGateway).lines_of_phase
  obtain ⟨a2, b2⟩ := (hps Kind.Subnet).lines_of_phase
  obtain ⟨a3, b3⟩ := (hps Kind.RouteTable).lines_of_phase
  obtain ⟨a4, b4⟩ := (hps Kind.NetworkAcl).lines_of_phase
  obtain ⟨a5, b5⟩ := (hps Kind.SecurityGroup).lines_of_phase
  have hv : List.Forall₂ (LineFor region) (attemptsOf (vpcEvents region v err))
      (stdoutOf (vpcEvents region v err)) := by
    cases err with
    | none => exact List.Forall₂.cons (lineFor_ok region v) List.Forall₂.nil
    | some e => exact List.Forall₂.cons (lineFor_error region v e) List.Forall₂.nil
  have hvid : (attemptsOf (vpcEvents region v err)).map Attempt.id = [v] := by
    cases err <;> rfl
  have hvl : listedOf (vpcEvents region v err) = [] := by
    cases err <;> rfl
  have hcons : ∀ l : List Event, attemptsOf (lookupEvent attrs :: l) = attemptsOf l ∧
      stdoutOf (lookupEvent attrs :: l) = stdoutOf l ∧
      listedOf (lookupEvent attrs :: l) = listedOf l := fun l => ⟨rfl, rfl, rfl⟩
  rw [(hcons _).1, (hcons _).2.1, (hcons _).2.2]
  simp only [attemptsOf_append, stdoutOf_append, listedOf_append, List.map_append, b1, b2, b3,
    b4, b5, hvid, hvl, List.append_nil]
  exact ⟨List.rel_append (List.rel_append (List.rel_append (List.rel_append
    (List.rel_append a1 a2) a3) a4) a5) hv, trivial⟩

theorem main_tasks_other_regions {σ : Type} (regions : List Region)
    (svc svc' : String → EC2 σ) (init init' : String → σ) (R : String)
    (h : ∀ r, r ≠ R → svc' r = svc r ∧ init' r = init r) :
    (main (Except.ok regions) svc' init').tasks.filter (fun t => decide (t.1 ≠ R)) =
      (main (Except.ok regions) svc init).tasks.filter (fun t => decide (t.1 ≠ R)) := by
  simp only [main, getRegions]
  induction regions with
  | nil => rfl
  | cons a l ih =>
    simp only [List.map_cons, List.filter_cons]
    by_cases hR : awsStringValue a.RegionName = R
    · simp only [hR, ne_eq, not_true_eq_false, decide_False, Bool.false_eq_true, if_false]
      exact ih
    · obtain ⟨h1, h2⟩ := h _ hR
      simp only [ne_eq, hR, not_false_eq_true, decide_True, if_true, h1, h2]
      exact congrArg _ ih

theorem main_crashed_other_regions {σ : Type} (regions : List Region)
    (svc : String → EC2 σ) (init : String → σ) (R : String)
    (h : (regionTask (svc R) R (init R)).outcome = Outcome.returned) :
    (main (Except.ok regions) svc init).crashed =
      ((main (Except.ok regions) svc init).tasks.filter (fun t => decide (t.1 ≠ R))).any
        (fun t => decide (t.2.outcome = Outcome.panicked)) := by
  simp only [main, getRegions]
  induction regions with
  | nil => rfl
  | cons a l ih =>
    simp only [List.map_cons, List.filter_cons, List.any_cons]
    by_cases hR : awsStringValue a.RegionName = R
    · simp only [hR, ne_eq, not_true_eq_false, decide_False, Bool.false_eq_true, if_false, h]
      simpa using ih
    · simp only [ne_eq, hR, not_false_eq_true, decide_True, if_true, List.any_cons]
      exact congrArg _ ih

theorem detach_calls_of_blocks {region vpc_id : String} {rs : List (Option String)}
    {blocks : List (List Event)} (hf : List.Forall₂ (GatewaySteps region vpc_id) rs blocks) :
    (callsOf blocks.flatten).filter Call.isDetach =
      rs.map fun g => Call.DetachInternetGateway g (some vpc_id) := by
  induction hf with
  | nil => rfl
  | @cons g b rs1 bs1 hr _ ih =>
    rw [List.flatten_cons, callsOf_append, List.filter_append, ih]
    cases hr <;> rfl

theorem Reply.ofErr_eq (err : Option String) : Reply.ofErr err = errorReply err := by
  cases err <;> rfl

theorem endState_append {σ : Type} (svc : EC2 σ) (a b : List Event) (s : σ) :
    endState svc (a ++ b) s = endState svc b (endState svc a s) := by
  induction a generalizing s with
  | nil => rfl
  | cons e t ih => cases e <;> exact ih _

theorem genuine_append {σ : Type} (svc : EC2 σ) (a b : List Event) (s : σ) :
    Genuine svc (a ++ b) s ↔ Genuine svc a s ∧ Genuine svc b (endState svc a s) := by
  induction a generalizing s with
  | nil => simp [Genuine, endState]
  | cons e t ih =>
    cases e with
    | call c r =>
      show (_ ∧ Genuine svc (t ++ b) _) ↔ (_ ∧ Genuine svc t _) ∧ Genuine svc b _
      rw [ih, and_assoc]
      rfl
    | stdout x => exact ih _
    | stderr x => exact ih _

/-- Two genuine traces, the second starting where the first ends, make a
genuine trace. -/
theorem genuine_seq {σ : Type} {svc : EC2 σ} {a b : List Event} {s s1 s2 : σ}
    (ha : Genuine svc a s ∧ endState svc a s = s1)
    (hb : Genuine svc b s1 ∧ endState svc b s1 = s2) :
    Genuine svc (a ++ b) s ∧ endState svc (a ++ b) s = s2 := by
  obtain ⟨ha1, ha2⟩ := ha
  obtain ⟨hb1, hb2⟩ := hb
  subst ha2
  exact ⟨(genuine_append svc a b s).mpr ⟨ha1, hb1⟩, by rw [endState_append, hb2]⟩

theorem pad15_padded (s : String) : Padded15 s (pad15 s) := by
  refine ⟨15 - s.length, rfl, ?_⟩
  have h : (String.mk (List.replicate (15 - s.length) ' ')).length = 15 - s.length :=
    List.length_replicate _ _
  rw [pad15, String.length_append, h]
  omega

theorem rmLine_isRmLine (region id suffix : String) :
    RmLine region id suffix (rmLine region id suffix) :=
  ⟨pad15 region, pad15 id, pad15_padded region, pad15_padded id, rfl⟩

theorem GatewaySteps.gateway_report {region vpc_id : String} {g : Option String} {b : List Event}
    (h : GatewaySteps region vpc_id g b) : GatewayReport region vpc_id g b := by
  cases h with
  | detachFailed e => exact GatewayReport.detachFailed e _ (rmLine_isRmLine _ _ _)
  | deleteFailed e => exact GatewayReport.deleteFailed e _ (rmLine_isRmLine _ _ _)
  | removed => exact GatewayReport.removed _ (rmLine_isRmLine _ _ _)

theorem DeleteSteps.single_report {k : Kind} {region : String} {g : Option String} {b : List Event}
    (h : DeleteSteps k region g b) : DeleteReport k region g b := by
  cases h with
  | deleteFailed e => exact DeleteReport.deleteFailed e _ (rmLine_isRmLine _ _ _)
  | removed => exact DeleteReport.removed _ (rmLine_isRmLine _ _ _)

theorem Steps.delete_report {k : Kind} {region vpc_id : String} {g : Option String}
    {b : List Event} (hk : k ≠ Kind.InternetGateway) (h : Steps k region vpc_id g b) :
    DeleteReport k region g b := by
  cases k <;> first | exact absurd rfl hk | exact DeleteSteps.single_report h

/-- The loop of a single-delete phase applies the delete operation to each
resource once, in order, and logs the reply it got. -/
theorem deleteEach_genuine {σ : Type} (svc : EC2 σ)
    (del : Option String → σ → Option String × σ) (mk : Option String → Call)
    (region : String)
    (hmk : ∀ g s, svc.answer (mk g) s = (errorReply (del g s).1, (del g s).2))
    (rs : List (Option String)) (s : σ) :
    Genuine svc (deleteEach del mk region rs s).2 s ∧
      endState svc (deleteEach del mk region rs s).2 s = (deleteEach del mk region rs s).1 := by
  induction rs generalizing s with
  | nil => exact ⟨trivial, rfl⟩
  | cons g rest ih =>
    obtain ⟨i1, i2⟩ := ih (del g s).2
    simp only [deleteEach, Genuine, endState, hmk, Reply.ofErr_eq]
    exact ⟨⟨trivial, i1⟩, i2⟩

/-- The loop of `rmIgws` applies the detach operation to each gateway once,
the delete operation once to those whose detach succeeded, in order, and logs
the replies it got. -/
theorem detachDeleteEach_genuine {σ : Type} (svc : EC2 σ) (vpc_id region : String)
    (rs : List (Option String)) (s : σ) :
    Genuine svc (detachDeleteEach svc vpc_id region rs s).2 s ∧
      endState svc (detachDeleteEach svc vpc_id region rs s).2 s =
        (detachDeleteEach svc vpc_id region rs s).1 := by
  induction rs generalizing s with
  | nil => exact ⟨trivial, rfl⟩
  | cons g rest ih =>
    cases h : (svc.DetachInternetGateway g (some vpc_id) s).1 with
    | some e =>
      obtain ⟨i1, i2⟩ := ih (svc.DetachInternetGateway g (some vpc_id) s).2
      simp only [detachDeleteEach, awsString, h, Genuine, endState, EC2.answer, Reply.ofErr_eq]
      exact ⟨⟨trivial, i1⟩, i2⟩
    | none =>
      obtain ⟨i1, i2⟩ := ih (svc.DeleteInternetGateway g
        (svc.DetachInternetGateway g (some vpc_id) s).2).2
      simp only [detachDeleteEach, awsString, h, Genuine, endState, EC2.answer, Reply.ofErr_eq]
      exact ⟨⟨trivial, trivial, i1⟩, i2⟩

/-- Every phase function makes exactly the calls its trace shows, gets the
replies its trace shows, and returns the state they leave. -/
theorem run_genuine {σ : Type} (k : Kind) (svc : EC2 σ) (vpc_id region : String) (s : σ) :
    Genuine svc (k.run svc vpc_id region s).2 s ∧
      endState svc (k.run svc vpc_id region s).2 s = (k.run svc vpc_id region s).1 := by
  cases k
  case InternetGateway =>
    cases h : (svc.DescribeInternetGateways (makeEC2Filters "attachment.vpc-id" vpc_id) s).1 with
    | error e =>
      simp [Kind.run, rmIgws, h, Genuine, endState, EC2.answer, listReply]
    | ok rs =>
      obtain ⟨i1, i2⟩ := detachDeleteEach_genuine svc vpc_id region rs
        (svc.DescribeInternetGateways (makeEC2Filters "attachment.vpc-id" vpc_id) s).2
      simp only [Kind.run, rmIgws, h, Genuine, endState, EC2.answer, listReply]
      exact ⟨⟨trivial, i1⟩, i2⟩
  case Subnet =>
    cases h : (svc.DescribeSubnets (makeEC2Filters "vpc-id" vpc_id) s).1 with
    | error e =>
      simp [Kind.run, rmSubns, h, Genuine, endState, EC2.answer, listReply]
    | ok rs =>
      obtain ⟨i1, i2⟩ := deleteEach_genuine svc svc.DeleteSubnet Call.DeleteSubnet region
        (fun _ _ => rfl) rs (svc.DescribeSubnets (makeEC2Filters "vpc-id" vpc_id) s).2
      simp only [Kind.run, rmSubns, h, Genuine, endState, EC2.answer, listReply]
      exact ⟨⟨trivial, i1⟩, i2⟩
  case RouteTable =>
    cases h : (svc.DescribeRouteTables (makeEC2Filters "vpc-id" vpc_id) s).1 with
    | error e =>
      simp [Kind.run, rmRtbs, h, Genuine, endState, EC2.answer, listReply]
    | ok rs =>
      obtain ⟨i1, i2⟩ := deleteEach_genuine svc svc.DeleteRouteTable Call.DeleteRouteTable region
        (fun _ _ => rfl) rs (svc.DescribeRouteTables (makeEC2Filters "vpc-id" vpc_id) s).2
      simp only [Kind.run, rmRtbs, h, Genuine, endState, EC2.answer, listReply]
      exact ⟨⟨trivial, i1⟩, i2⟩
  case NetworkAcl =>
    cases h : (svc.DescribeNetworkAcls (makeEC2Filters "vpc-id" vpc_id) s).1 with
    | error e =>
      simp [Kind.run, rmAcls, h, Genuine, endState, EC2.answer, listReply]
    | ok rs =>
      obtain ⟨i1, i2⟩ := deleteEach_genuine svc svc.DeleteNetworkAcl Call.DeleteNetworkAcl region
        (fun _ _ => rfl) rs (svc.DescribeNetworkAcls (makeEC2Filters "vpc-id" vpc_id) s).2
      simp only [Kind.run, rmAcls, h, Genuine, endState, EC2.answer, listReply]
      exact ⟨⟨trivial, i1⟩, i2⟩
  case SecurityGroup =>
    cases h : (svc.DescribeSecurityGroups (makeEC2Filters "vpc-id" vpc_id) s).1 with
    | error e =>
      simp [Kind.run, rmSgs, h, Genuine, endState, EC2.answer, listReply]
    | ok rs =>
      obtain ⟨i1, i2⟩ := deleteEach_genuine svc svc.DeleteSecurityGroup
        Call.DeleteSecurityGroup region (fun _ _ => rfl) rs
        (svc.DescribeSecurityGroups (makeEC2Filters "vpc-id" vpc_id) s).2
      simp only [Kind.run, rmSgs, h, Genuine, endState, EC2.answer, listReply]
      exact ⟨⟨trivial, i1⟩, i2⟩

/-- A task that resolved the VPC id `v`: its events are a genuine trace of
calls of the phases before `DeleteVpc`, followed by the `DeleteVpc` call made
in the state those calls leave, with the reply the client gives there, and
its line. -/
theorem regionTask_resolved {σ : Type} (svc : EC2 σ) (region : String) (s : σ)
    (attrs : DescribeAccountAttributesOutput) (v : String)
    (hlookup : (svc.DescribeAccountAttributes [some "default-vpc"] s).1 = Except.ok attrs)
    (hvpc : defaultVpcId attrs = some v) :
    ∃ pre : List Event,
      (regionTask svc region s).events =
        pre ++ [Event.call (Call.DeleteVpc (some v))
                  (errorReply (svc.DeleteVpc (some v) (endState svc pre s)).1),
                Event.stdout (rmLine region v
                  (suffixOf (svc.DeleteVpc (some v) (endState svc pre s)).1))] ∧
      (regionTask svc region s).state = (svc.DeleteVpc (some v) (endState svc pre s)).2 ∧
      Genuine svc pre s ∧
      (∀ c ∈ callsOf pre, c.phase < 6) := by
  let s0 := (svc.DescribeAccountAttributes [some "default-vpc"] s).2
  have g1 := run_genuine Kind.InternetGateway svc v region s0
  have g2 := run_genuine Kind.Subnet svc v region (rmIgws svc v region s0).1
  have g3 := run_genuine Kind.RouteTable svc v region
    (rmSubns svc v region (rmIgws svc v region s0).1).1
  have g4 := run_genuine Kind.NetworkAcl svc v region
    (rmRtbs svc v region (rmSubns svc v region (rmIgws svc v region s0).1).1).1
  have g5 := run_genuine Kind.SecurityGroup svc v region
    (rmAcls svc v region (rmRtbs svc v region (rmSubns svc v region
      (rmIgws svc v region s0).1).1).1).1
  simp only [Kind.run] at g1 g2 g3 g4 g5
  have g := genuine_seq (genuine_seq (genuine_seq (genuine_seq g1 g2) g3) g4) g5
  have g0 : Genuine svc [lookupEvent attrs] s ∧ endState svc [lookupEvent attrs] s = s0 := by
    refine ⟨⟨?_, trivial⟩, rfl⟩
    show attributesReply (svc.DescribeAccountAttributes [some "default-vpc"] s).1
      = Reply.attributes attrs
    rw [hlookup]
    rfl
  have gpre := genuine_seq g0 g
  refine ⟨_, ?_, ?_, gpre.1, ?_⟩
  · rw [gpre.2]
    simp [regionTask, awsString, hlookup, hvpc, rmVpc, suffixOf, lookupEvent, Reply.ofErr_eq, s0]
  · rw [gpre.2]
    simp [regionTask, awsString, hlookup, hvpc, rmVpc, s0]
  · intro c hc
    obtain ⟨r, hr⟩ := mem_callsOf.mp hc
    have hph : ∀ (k : Kind) (st : σ), Event.call c r ∈ (k.run svc v region st).2 →
        c.phase < 6 := by
      intro k st hin
      rw [(run_phaseTrace k svc v region st).phase_eq c (mem_callsOf.mpr ⟨r, hin⟩)]
      cases k <;> simp [Kind.index]
    simp only [List.singleton_append, List.mem_cons, List.mem_append] at hr
    rcases hr with heq | ((((h | h) | h) | h) | h)
    · injection heq with hc0 _
      subst hc0
      simp [Call.phase]
    · exact hph Kind.InternetGateway _ h
    · exact hph Kind.Subnet _ h
    · exact hph Kind.RouteTable _ h
    · exact hph Kind.NetworkAcl _ h
    · exact hph Kind.SecurityGroup _ h

/-! ## The claims -/

/-- C1: in a task whose lookup succeeded and resolved the VPC id `v`, whatever
the provider answers, the provider calls are ordered by phase (lookup, then
internet gateways, subnets, route tables, network ACLs, security groups, then
`DeleteVpc`): no call of a later phase comes before a call of an earlier one,
and the phases are entered exactly once each, in this order. -/
theorem calls_ordered_by_phase {σ : Type} (svc : EC2 σ) (region : String) (s : σ)
    (attrs : DescribeAccountAttributesOutput) (v : String)
    (hlookup : (svc.DescribeAccountAttributes [some "default-vpc"] s).1 = Except.ok attrs)
    (hvpc : defaultVpcId attrs = some v) :
    (callsOf (regionTask svc region s).events).Pairwise (fun a b => a.phase ≤ b.phase) ∧
    (callsOf (regionTask svc region s).events).filter Call.opensPhase =
      [Call.DescribeInternetGateways [{ Name := some "attachment.vpc-id", Values := [some v] }],
       Call.DescribeSubnets [{ Name := some "vpc-id", Values := [some v] }],
       Call.DescribeRouteTables [{ Name := some "vpc-id", Values := [some v] }],
       Call.DescribeNetworkAcls [{ Name := some "vpc-id", Values := [some v] }],
       Call.DescribeSecurityGroups [{ Name := some "vpc-id", Values := [some v] }],
       Call.DeleteVpc (some v)] :=
  have h := (regionTask_trace svc region s attrs v hlookup hvpc).1
  ⟨h.pairwise, h.skeleton⟩

theorem calls_ordered_by_phase_witness :
    (callsOf (regionTask (scenario none) "us-west-2" ()).events).Pairwise
        (fun a b => a.phase ≤ b.phase) ∧
    (callsOf (regionTask (scenario none) "us-west-2" ()).events).filter Call.opensPhase =
      [Call.DescribeInternetGateways
         [{ Name := some "attachment.vpc-id", Values := [some "vpc-1"] }],
       Call.DescribeSubnets [{ Name := some "vpc-id", Values := [some "vpc-1"] }],
       Call.DescribeRouteTables [{ Name := some "vpc-id", Values := [some "vpc-1"] }],
       Call.DescribeNetworkAcls [{ Name := some "vpc-id", Values := [some "vpc-1"] }],
       Call.DescribeSecurityGroups [{ Name := some "vpc-id", Values := [some "vpc-1"] }],
       Call.DeleteVpc (some "vpc-1")] :=
  calls_ordered_by_phase (scenario none) "us-west-2" () vpc1Attrs "vpc-1" rfl rfl

/-- C2: in each of the phases Subnet, RouteTable, NetworkAcl and SecurityGroup,
when the list call succeeds and returns `rs`, the calls of the phase are the
list call followed by exactly one delete call per element of `rs`, in list
order, whatever errors the delete calls return: the events after the list
call are, per element of `rs` in order, the delete call and the line for
that element; the trace is genuine, that is, every call of it was made to the
client, once, in the state the earlier calls left, and got the reply the
client gave; and the phase returns the state these calls leave.  Inside a
whole task the calls of that phase are the same, the list calls of all phases
and `DeleteVpc` are issued, and the task's trace is genuine too. -/
theorem every_listed_resource_deleted {σ : Type} (svc : EC2 σ) (k : Kind) (region : String)
    (hk : k ≠ Kind.InternetGateway) :
    (∀ (vpc_id : String) (s : σ) (rs : List (Option String)),
      (k.describe svc [{ Name := some "vpc-id", Values := [some vpc_id] }] s).1 = Except.ok rs →
      callsOf (k.run svc vpc_id region s).2 =
        k.listCall [{ Name := some "vpc-id", Values := [some vpc_id] }] :: rs.map k.deleteCall ∧
      (∃ blocks,
        (k.run svc vpc_id region s).2 =
          Event.call (k.listCall [{ Name := some "vpc-id", Values := [some vpc_id] }])
            (Reply.listed rs) :: blocks.flatten ∧
        List.Forall₂ (DeleteReport k region) rs blocks) ∧
      Genuine svc (k.run svc vpc_id region s).2 s ∧
      endState svc (k.run svc vpc_id region s).2 s = (k.run svc vpc_id region s).1) ∧
    (∀ (s : σ) (attrs : DescribeAccountAttributesOutput) (v : String),
      (svc.DescribeAccountAttributes [some "default-vpc"] s).1 = Except.ok attrs →
      defaultVpcId attrs = some v →
      (∀ (f : List Filter) (rs : List (Option String)),
        Event.call (k.listCall f) (Reply.listed rs) ∈ (regionTask svc region s).events →
        (callsOf (regionTask svc region s).events).filter (fun c => decide (c.phase = k.index)) =
          k.listCall [{ Name := some "vpc-id", Values := [some v] }] :: rs.map k.deleteCall) ∧
      (callsOf (regionTask svc region s).events).filter Call.opensPhase =
        [Call.DescribeInternetGateways (Kind.InternetGateway.filters v),
         Call.DescribeSubnets (Kind.Subnet.filters v),
         Call.DescribeRouteTables (Kind.RouteTable.filters v),
         Call.DescribeNetworkAcls (Kind.NetworkAcl.filters v),
         Call.DescribeSecurityGroups (Kind.SecurityGroup.filters v),
         Call.DeleteVpc (some v)] ∧
      Genuine svc (regionTask svc region s).events s ∧
      endState svc (regionTask svc region s).events s = (regionTask svc region s).state) := by
  have hfilters : ∀ v : String,
      k.filters v = [{ Name := some "vpc-id", Values := [some v] }] := by
    intro v
    cases k <;> first | exact absurd rfl hk | rfl
  refine ⟨?_, ?_⟩
  · intro vpc_id s rs hlist
    rw [← hfilters] at hlist ⊢
    obtain ⟨blocks, hb, hf⟩ := run_of_list_ok svc k vpc_id region s rs hlist
    obtain ⟨g1, g2⟩ := run_genuine k svc vpc_id region s
    refine ⟨?_, ⟨blocks, hb, hf.imp fun _ _ h => Steps.delete_report hk h⟩, g1, g2⟩
    rw [hb]
    simp only [callsOf, List.filterMap_cons, Event.call?]
    rw [← callsOf, calls_of_simple_blocks hk hf]
  · intro s attrs v hl hv
    have ht := (regionTask_trace svc region s attrs v hl hv).1
    obtain ⟨pre, hev, hst, hg, _⟩ := regionTask_resolved svc region s attrs v hl hv
    have hlast : Genuine svc [Event.call (Call.DeleteVpc (some v))
          (errorReply (svc.DeleteVpc (some v) (endState svc pre s)).1),
        Event.stdout (rmLine region v
          (suffixOf (svc.DeleteVpc (some v) (endState svc pre s)).1))] (endState svc pre s) ∧
        endState svc [Event.call (Call.DeleteVpc (some v))
          (errorReply (svc.DeleteVpc (some v) (endState svc pre s)).1),
        Event.stdout (rmLine region v
          (suffixOf (svc.DeleteVpc (some v) (endState svc pre s)).1))] (endState svc pre s) =
        (svc.DeleteVpc (some v) (endState svc pre s)).2 :=
      ⟨⟨rfl, trivial⟩, rfl⟩
    have hall := genuine_seq ⟨hg, rfl⟩ hlast
    rw [← hev, ← hst] at hall
    refine ⟨?_, ht.skeleton, hall.1, hall.2⟩
    intro f rs hmem
    obtain ⟨blocks, hf, hc⟩ := ht.filter_phase k hmem
    rw [hc, calls_of_simple_blocks hk hf, hfilters]

theorem every_listed_resource_deleted_witness :
    (callsOf (rmSubns everyOtherFails "vpc-1" "us-west-2" 0).2 =
        [Call.DescribeSubnets [{ Name := some "vpc-id", Values := [some "vpc-1"] }],
         Call.DeleteSubnet (some "subnet-1"), Call.DeleteSubnet (some "subnet-2")] ∧
      (∃ blocks,
        (rmSubns everyOtherFails "vpc-1" "us-west-2" 0).2 =
          Event.call (Call.DescribeSubnets [{ Name := some "vpc-id", Values := [some "vpc-1"] }])
            (Reply.listed [some "subnet-1", some "subnet-2"]) :: blocks.flatten ∧
        List.Forall₂ (DeleteReport Kind.Subnet "us-west-2")
          [some "subnet-1", some "subnet-2"] blocks) ∧
      Genuine everyOtherFails (rmSubns everyOtherFails "vpc-1" "us-west-2" 0).2 0 ∧
      endState everyOtherFails (rmSubns everyOtherFails "vpc-1" "us-west-2" 0).2 0 =
        (rmSubns everyOtherFails "vpc-1" "us-west-2" 0).1) ∧
    rmSubns everyOtherFails "vpc-1" "us-west-2" 0 =
      (2, [Event.call (Call.DescribeSubnets [{ Name := some "vpc-id", Values := [some "vpc-1"] }])
             (Reply.listed [some "subnet-1", some "subnet-2"]),
           Event.call (Call.DeleteSubnet (some "subnet-1")) (Reply.failed "DependencyViolation"),
           Event.stdout "rm us-west-2       subnet-1        (error: DependencyViolation)\n",
           Event.call (Call.DeleteSubnet (some "subnet-2")) Reply.done,
           Event.stdout "rm us-west-2       subnet-2       \n"]) :=
  ⟨(every_listed_resource_deleted everyOtherFails Kind.Subnet "us-west-2" (by decide)).1
      "vpc-1" 0 [some "subnet-1", some "subnet-2"] rfl,
   by decide⟩

/-- C3: when the internet-gateway list call succeeds and returns `gws`, the
events of `rmIgws` after the list call are, for each element of `gws` in
order, one of: a failed detach call and a line carrying the detach error's
message, with no delete call; a successful detach call, a failed delete call
and a line carrying the delete error's message; a successful detach call, a
successful delete call and a line without suffix.  The trace is genuine:
every call of it was made to the client, once, in the state the earlier
calls left, and its reply is the one the client gave, so which of the three
occurs for a gateway is decided by what the client returned for that
gateway's detach and delete; and `rmIgws` returns the state these calls
leave.  In particular the detach calls are exactly one per element of `gws`,
in order. -/
theorem gateway_detach_then_delete {σ : Type} (svc : EC2 σ) (vpc_id region : String) (s : σ)
    (gws : List (Option String))
    (hlist : (svc.DescribeInternetGateways
      [{ Name := some "attachment.vpc-id", Values := [some vpc_id] }] s).1 = Except.ok gws) :
    (∃ blocks,
      (rmIgws svc vpc_id region s).2 =
        Event.call (Call.DescribeInternetGateways
          [{ Name := some "attachment.vpc-id", Values := [some vpc_id] }]) (Reply.listed gws)
          :: blocks.flatten ∧
      List.Forall₂ (GatewayReport region vpc_id) gws blocks) ∧
    Genuine svc (rmIgws svc vpc_id region s).2 s ∧
    endState svc (rmIgws svc vpc_id region s).2 s = (rmIgws svc vpc_id region s).1 ∧
    (callsOf (rmIgws svc vpc_id region s).2).filter Call.isDetach =
      gws.map fun g => Call.DetachInternetGateway g (some vpc_id) := by
  obtain ⟨blocks, hb, hf⟩ := run_of_list_ok svc Kind.InternetGateway vpc_id region s gws hlist
  obtain ⟨g1, g2⟩ := run_genuine Kind.InternetGateway svc vpc_id region s
  have hf2 : List.Forall₂ (GatewaySteps region vpc_id) gws blocks := hf
  refine ⟨⟨blocks, hb, hf2.imp fun _ _ h => h.gateway_report⟩, g1, g2, ?_⟩
  have hb2 : (rmIgws svc vpc_id region s).2 = Event.call (Call.DescribeInternetGateways
      [{ Name := some "attachment.vpc-id", Values := [some vpc_id] }]) (Reply.listed gws)
      :: blocks.flatten := hb
  rw [hb2]
  exact detach_calls_of_blocks hf2

theorem gateway_detach_then_delete_witness :
    ((∃ blocks,
        (rmIgws gatewaysByCount "vpc-1" "us-west-2" 0).2 =
          Event.call (Call.DescribeInternetGateways
            [{ Name := some "attachment.vpc-id", Values := [some "vpc-1"] }])
            (Reply.listed [some "igw-a", some "igw-b", some "igw-c"])
            :: blocks.flatten ∧
        List.Forall₂ (GatewayReport "us-west-2" "vpc-1")
          [some "igw-a", some "igw-b", some "igw-c"] blocks) ∧
      Genuine gatewaysByCount (rmIgws gatewaysByCount "vpc-1" "us-west-2" 0).2 0 ∧
      endState gatewaysByCount (rmIgws gatewaysByCount "vpc-1" "us-west-2" 0).2 0 =
        (rmIgws gatewaysByCount "vpc-1" "us-west-2" 0).1 ∧
      (callsOf (rmIgws gatewaysByCount "vpc-1" "us-west-2" 0).2).filter Call.isDetach =
        [some "igw-a", some "igw-b", some "igw-c"].map
          fun g => Call.DetachInternetGateway g (some "vpc-1")) ∧
    rmIgws gatewaysByCount "vpc-1" "us-west-2" 0 =
      (5, [Event.call (Call.DescribeInternetGateways
             [{ Name := some "attachment.vpc-id", Values := [some "vpc-1"] }])
             (Reply.listed [some "igw-a", some "igw-b", some "igw-c"]),
           Event.call (Call.DetachInternetGateway (some "igw-a") (some "vpc-1"))
             (Reply.failed "Gateway.NotAttached"),
           Event.stdout "rm us-west-2       igw-a           (detach error: Gateway.NotAttached)\n",
           Event.call (Call.DetachInternetGateway (some "igw-b") (some "vpc-1")) Reply.done,
           Event.call (Call.DeleteInternetGateway (some "igw-b"))
             (Reply.failed "DependencyViolation"),
           Event.stdout "rm us-west-2       igw-b           (error: DependencyViolation)\n",
           Event.call (Call.DetachInternetGateway (some "igw-c") (some "vpc-1")) Reply.done,
           Event.call (Call.DeleteInternetGateway (some "igw-c")) Reply.done,
           Event.stdout "rm us-west-2       igw-c          \n"]) :=
  ⟨gateway_detach_then_delete gatewaysByCount "vpc-1" "us-west-2" 0
      [some "igw-a", some "igw-b", some "igw-c"] rfl,
   by decide⟩

/-- C4: in a task that resolved the VPC id `v`, whatever failed in the five
earlier phases, the trace is a genuine trace of calls of earlier phases
followed by one `DeleteVpc` call for `v`, made in the state those calls left,
and its line on standard output: when the client returns no error the reply
is success and the line has no suffix, when it returns the error `e` the
reply is that failure and the line carries `e`; nothing follows, and the task
ends in the state that call leaves.  So `DeleteVpc` is called exactly once,
is the last provider call, and a failure is reported in one line without a
second call. -/
theorem vpc_deleted_once_last {σ : Type} (svc : EC2 σ) (region : String) (s : σ)
    (attrs : DescribeAccountAttributesOutput) (v : String)
    (hlookup : (svc.DescribeAccountAttributes [some "default-vpc"] s).1 = Except.ok attrs)
    (hvpc : defaultVpcId attrs = some v) :
    (∃ pre reply line,
      (regionTask svc region s).events =
        pre ++ [Event.call (Call.DeleteVpc (some v)) reply, Event.stdout line] ∧
      Genuine svc pre s ∧
      (∀ c ∈ callsOf pre, c.phase < 6) ∧
      (((svc.DeleteVpc (some v) (endState svc pre s)).1 = none ∧ reply = Reply.done ∧
          RmLine region v "" line) ∨
       ∃ e, (svc.DeleteVpc (some v) (endState svc pre s)).1 = some e ∧
          reply = Reply.failed e ∧ RmLine region v (" (error: " ++ e ++ ")") line) ∧
      (regionTask svc region s).state = (svc.DeleteVpc (some v) (endState svc pre s)).2) ∧
    (callsOf (regionTask svc region s).events).filter (fun c => decide (c.phase = 6)) =
      [Call.DeleteVpc (some v)] ∧
    (callsOf (regionTask svc region s).events).getLast? = some (Call.DeleteVpc (some v)) := by
  obtain ⟨pre, hev, hst, hg, hpre⟩ := regionTask_resolved svc region s attrs v hlookup hvpc
  refine ⟨⟨pre, _, _, hev, hg, hpre, ?_, hst⟩, ?_, ?_⟩
  · cases h : (svc.DeleteVpc (some v) (endState svc pre s)).1 with
    | none => exact Or.inl ⟨rfl, rfl, rmLine_isRmLine region v ""⟩
    | some e => exact Or.inr ⟨e, rfl, rfl, rmLine_isRmLine region v _⟩
  · rw [hev, callsOf_append, List.filter_append]
    have h0 : (callsOf pre).filter (fun c => decide (c.phase = 6)) = [] := by
      apply List.filter_eq_nil_iff.mpr
      intro c hc
      have := hpre c hc
      simp
      omega
    rw [h0]
    simp [callsOf, Event.call?, Call.phase]
  · rw [hev, callsOf_append]
    simp [callsOf, Event.call?]

theorem vpc_deleted_once_last_witness :
    ((∃ pre reply line,
        (regionTask everyOtherFails "us-west-2" 0).events =
          pre ++ [Event.call (Call.DeleteVpc (some "vpc-1")) reply, Event.stdout line] ∧
        Genuine everyOtherFails pre 0 ∧
        (∀ c ∈ callsOf pre, c.phase < 6) ∧
        (((everyOtherFails.DeleteVpc (some "vpc-1") (endState everyOtherFails pre 0)).1 = none ∧
            reply = Reply.done ∧ RmLine "us-west-2" "vpc-1" "" line) ∨
         ∃ e, (everyOtherFails.DeleteVpc (some "vpc-1") (endState everyOtherFails pre 0)).1
              = some e ∧
            reply = Reply.failed e ∧
            RmLine "us-west-2" "vpc-1" (" (error: " ++ e ++ ")") line) ∧
        (regionTask everyOtherFails "us-west-2" 0).state =
          (everyOtherFails.DeleteVpc (some "vpc-1") (endState everyOtherFails pre 0)).2) ∧
      (callsOf (regionTask everyOtherFails "us-west-2" 0).events).filter
          (fun c => decide (c.phase = 6)) = [Call.DeleteVpc (some "vpc-1")] ∧
      (callsOf (regionTask everyOtherFails "us-west-2" 0).events).getLast?
        = some (Call.DeleteVpc (some "vpc-1"))) ∧
    (regionTask everyOtherFails "us-west-2" 0).events.drop 10 =
      [Event.call (Call.DeleteVpc (some "vpc-1")) (Reply.failed "DependencyViolation"),
       Event.stdout "rm us-west-2       vpc-1           (error: DependencyViolation)\n"] ∧
    (regionTask everyOtherFails "us-west-2" 0).state = 3 :=
  ⟨vpc_deleted_once_last everyOtherFails "us-west-2" 0 vpc1Attrs "vpc-1" rfl rfl,
   by decide, by decide⟩

/-- C5: for each of the five resource phases, when the phase's list call
returns an error the phase function makes no other call and prints nothing on
standard output, writes one line on standard error made of the region, the
VPC id and the error's text, and returns (with the state the list call left);
and in every task that resolved the VPC id all five list calls and `DeleteVpc`
are issued, so the later phases and the VPC deletion still run. -/
theorem list_error_skips_phase {σ : Type} (svc : EC2 σ) (k : Kind) (vpc_id region : String)
    (s : σ) (e : String)
    (hlist : (k.describe svc [{ Name := some k.filterName, Values := [some vpc_id] }] s).1
      = Except.error e) :
    callsOf (k.run svc vpc_id region s).2 =
      [k.listCall [{ Name := some k.filterName, Values := [some vpc_id] }]] ∧
    stdoutOf (k.run svc vpc_id region s).2 = [] ∧
    stderrOf (k.run svc vpc_id region s).2 =
      ["error: " ++ region ++ " " ++ vpc_id ++ " failed to get " ++ k.what ++ ": " ++ e ++ "\n"] ∧
    (k.run svc vpc_id region s).1 =
      (k.describe svc [{ Name := some k.filterName, Values := [some vpc_id] }] s).2 ∧
    ∀ (s0 : σ) (attrs : DescribeAccountAttributesOutput),
      (svc.DescribeAccountAttributes [some "default-vpc"] s0).1 = Except.ok attrs →
      defaultVpcId attrs = some vpc_id →
      (callsOf (regionTask svc region s0).events).filter Call.opensPhase =
        [Call.DescribeInternetGateways (Kind.InternetGateway.filters vpc_id),
         Call.DescribeSubnets (Kind.Subnet.filters vpc_id),
         Call.DescribeRouteTables (Kind.RouteTable.filters vpc_id),
         Call.DescribeNetworkAcls (Kind.NetworkAcl.filters vpc_id),
         Call.DescribeSecurityGroups (Kind.SecurityGroup.filters vpc_id),
         Call.DeleteVpc (some vpc_id)] := by
  have h := run_of_list_error svc k vpc_id region s e hlist
  refine ⟨?_, ?_, ?_, ?_, ?_⟩
  · rw [h]; simp [callsOf, Event.call?, Kind.filters]
  · rw [h]; simp [stdoutOf, Event.stdout?]
  · rw [h]; simp [stderrOf, Event.stderr?, listErrorLine]
  · rw [h]; rfl
  · intro s0 attrs hl hv
    exact (regionTask_trace svc region s0 attrs vpc_id hl hv).1.skeleton

theorem list_error_skips_phase_witness :
    (rmSubns subnetsUnlistable "vpc-1" "us-west-2" ()).2 =
      [Event.call (Call.DescribeSubnets [{ Name := some "vpc-id", Values := [some "vpc-1"] }])
         (Reply.failed "RequestLimitExceeded"),
       Event.stderr "error: us-west-2 vpc-1 failed to get subnets: RequestLimitExceeded\n"] ∧
    stderrOf (rmSubns subnetsUnlistable "vpc-1" "us-west-2" ()).2 =
      ["error: us-west-2 vpc-1 failed to get subnets: RequestLimitExceeded\n"] ∧
    callsOf (regionTask subnetsUnlistable "us-west-2" ()).events =
      [Call.DescribeAccountAttributes [some "default-vpc"],
       Call.DescribeInternetGateways
         [{ Name := some "attachment.vpc-id", Values := [some "vpc-1"] }],
       Call.DescribeSubnets [{ Name := some "vpc-id", Values := [some "vpc-1"] }],
       Call.DescribeRouteTables [{ Name := some "vpc-id", Values := [some "vpc-1"] }],
       Call.DescribeNetworkAcls [{ Name := some "vpc-id", Values := [some "vpc-1"] }],
       Call.DescribeSecurityGroups [{ Name := some "vpc-id", Values := [some "vpc-1"] }],
       Call.DeleteVpc (some "vpc-1")] :=
  ⟨by decide,
   (list_error_skips_phase subnetsUnlistable Kind.Subnet "vpc-1" "us-west-2" ()
      "RequestLimitExceeded" rfl).2.2.1,
   by decide⟩

/-- C6: when the account-attribute lookup of region `R` returns an error, the
task of `R` makes no other provider call, writes one line on standard error
made of `R` and the error's text, prints nothing on standard output and
returns; the tasks of the other regions are what they would be under any
other behaviour of the provider for `R`, and the task of `R` does not bring
the process down. -/
theorem lookup_error_abandons_region {σ : Type} (svc : String → EC2 σ) (init : String → σ)
    (R e : String)
    (hfail : ((svc R).DescribeAccountAttributes [some "default-vpc"] (init R)).1
      = Except.error e) :
    (regionTask (svc R) R (init R)).events =
      [Event.call (Call.DescribeAccountAttributes [some "default-vpc"]) (Reply.failed e),
       Event.stderr ("error: " ++ R ++ " account attrs: " ++ e ++ "\n")] ∧
    (regionTask (svc R) R (init R)).outcome = Outcome.returned ∧
    ∀ (regions : List Region),
      (∀ (svc' : String → EC2 σ) (init' : String → σ),
        (∀ r, r ≠ R → svc' r = svc r ∧ init' r = init r) →
        (main (Except.ok regions) svc' init').tasks.filter (fun t => decide (t.1 ≠ R)) =
          (main (Except.ok regions) svc init).tasks.filter (fun t => decide (t.1 ≠ R))) ∧
      (main (Except.ok regions) svc init).crashed =
        ((main (Except.ok regions) svc init).tasks.filter (fun t => decide (t.1 ≠ R))).any
          (fun t => decide (t.2.outcome = Outcome.panicked)) := by
  have hout : (regionTask (svc R) R (init R)).outcome = Outcome.returned := by
    simp [regionTask, awsString, hfail]
  refine ⟨?_, hout, fun regions => ⟨fun svc' init' h => ?_, ?_⟩⟩
  · simp [regionTask, awsString, hfail, attrsErrorLine]
  · exact main_tasks_other_regions regions svc svc' init init' R h
  · exact main_crashed_other_regions regions svc init R hout

theorem lookup_error_abandons_region_witness :
    (regionTask lookupFails "eu-west-1" ()).events =
      [Event.call (Call.DescribeAccountAttributes [some "default-vpc"])
         (Reply.failed "AuthFailure"),
       Event.stderr "error: eu-west-1 account attrs: AuthFailure\n"] ∧
    (regionTask lookupFails "eu-west-1" ()).outcome = Outcome.returned :=
  have h := lookup_error_abandons_region
    (fun r => if r = "eu-west-1" then lookupFails else scenario none) (fun _ => ())
    "eu-west-1" "AuthFailure" rfl
  ⟨h.1, h.2.1⟩

/-- C7, as the code behaves: when the lookup succeeds with no
account-attribute record, or with a first record that has no attribute value,
the task panics on the index expression, having written nothing to standard
error, and the run over the regions is brought down although the other
region's task is sound. -/
theorem empty_lookup_panics :
    (regionTask noAttributeRecord "eu-west-1" ()).outcome = Outcome.panicked ∧
    stderrOf (regionTask noAttributeRecord "eu-west-1" ()).events = [] ∧
    (regionTask noAttributeValue "eu-west-1" ()).outcome = Outcome.panicked ∧
    stderrOf (regionTask noAttributeValue "eu-west-1" ()).events = [] ∧
    (main (Except.ok [{ RegionName := some "eu-west-1" }, { RegionName := some "us-west-2" }])
      (fun r => if r = "eu-west-1" then noAttributeRecord else scenario none)
      (fun _ => ())).crashed = true := by
  decide

/-- C8: `makeEC2Filters attr val` is the one-element list whose filter has name
`attr` and the single value `val`; in a task that resolved the VPC id `v`,
every list call carries exactly that one filter with the value `v`, named
`attachment.vpc-id` for internet gateways and `vpc-id` for the other kinds;
every detach names the VPC `v`; and every detach or delete call on a
resource targets an id that the list call of its own kind returned in this
task. -/
theorem filters_and_targets {σ : Type} (svc : EC2 σ) (region : String) (s : σ)
    (attrs : DescribeAccountAttributesOutput) (v : String)
    (hlookup : (svc.DescribeAccountAttributes [some "default-vpc"] s).1 = Except.ok attrs)
    (hvpc : defaultVpcId attrs = some v) :
    (∀ attr val : String,
      makeEC2Filters attr val = [{ Name := some attr, Values := [some val] }]) ∧
    ∀ c ∈ callsOf (regionTask svc region s).events,
      (∀ k f, c.lists? = some (k, f) →
        f = [{ Name := some k.filterName, Values := [some v] }]) ∧
      (∀ g w, c = Call.DetachInternetGateway g w → w = some v) ∧
      (∀ k g, c.target? = some (k, g) →
        ∃ rs, Event.call (k.listCall [{ Name := some k.filterName, Values := [some v] }])
            (Reply.listed rs) ∈ (regionTask svc region s).events ∧ g ∈ rs) := by
  refine ⟨fun _ _ => rfl, ?_⟩
  intro c hc
  have ht := (regionTask_trace svc region s attrs v hlookup hvpc).1
  rcases ht.mem_call hc with ⟨hl, htg, hd⟩ | ⟨j, p, hp, hsub, hcp⟩
  · refine ⟨fun k f h => ?_, fun g w h => absurd h (hd g w), fun k g h => ?_⟩
    · rw [hl] at h; cases h
    · rw [htg] at h; cases h
  · obtain ⟨rest, hcalls, hrest⟩ := hp.calls
    refine ⟨fun k f h => ?_, fun g w h => ?_, fun k g h => ?_⟩
    · rw [hcalls] at hcp
      rcases List.mem_cons.mp hcp with rfl | hin
      · rw [Kind.listCall_lists] at h
        injection h with h
        injection h with h1 h2
        subst h1
        exact h2.symm
      · obtain ⟨g, hg, _⟩ := hrest c hin
        rw [Call.lists_of_target hg] at h
        cases h
    · subst h
      exact hp.detach_vpc hcp
    · rw [hcalls] at hcp
      rcases List.mem_cons.mp hcp with rfl | hin
      · rw [Kind.listCall_target] at h
        cases h
      · obtain ⟨g1, hg1, rs, hrs, hmem⟩ := hrest c hin
        rw [hg1] at h
        injection h with h
        injection h with h1 h2
        subst h1
        subst h2
        exact ⟨rs, hsub _ hrs, hmem⟩

theorem filters_and_targets_witness :
    ∃ rs, Event.call (Kind.InternetGateway.listCall
          [{ Name := some Kind.InternetGateway.filterName, Values := [some "vpc-1"] }])
        (Reply.listed rs) ∈ (regionTask gateways "us-west-2" ()).events ∧
      some "igw-b" ∈ rs :=
  ((filters_and_targets gateways "us-west-2" () vpc1Attrs "vpc-1" rfl rfl).2
    (Call.DeleteInternetGateway (some "igw-b")) (by decide)).2.2
    Kind.InternetGateway (some "igw-b") rfl

/-- C9: the lines a task writes on standard output correspond one to one, in
order, to its removal attempts: each line is `rm`, the region padded to 15, a
space, the resource id padded to 15, a suffix and a newline, where the suffix
is empty when the attempt succeeded and otherwise is a non-empty
parenthesised text ending with the provider error's message.  In a task that
resolved the VPC id `v` the attempted ids are the resources returned by the
successful list calls, in order, followed by `v`.  In the end-to-end scenario
standard output is exactly the line for `subnet-1` without suffix, the line
for `sg-1` with `DependencyViolation` in its suffix, and the line for
`vpc-1`. -/
theorem stdout_lines_match_attempts :
    (∀ {σ : Type} (svc : EC2 σ) (region : String) (s : σ),
      List.Forall₂ (LineFor region) (attemptsOf (regionTask svc region s).events)
        (stdoutOf (regionTask svc region s).events)) ∧
    (∀ {σ : Type} (svc : EC2 σ) (region : String) (s : σ)
      (attrs : DescribeAccountAttributesOutput) (v : String),
      (svc.DescribeAccountAttributes [some "default-vpc"] s).1 = Except.ok attrs →
      defaultVpcId attrs = some v →
      (attemptsOf (regionTask svc region s).events).map Attempt.id =
        (listedOf (regionTask svc region s).events).map awsStringValue ++ [v]) ∧
    (∀ vpcErr : Option String,
      stdoutOf (regionTask (scenario vpcErr) "us-west-2" ()).events =
        ["rm us-west-2       subnet-1       \n",
         "rm us-west-2       sg-1            (error: DependencyViolation)\n",
         "rm us-west-2       vpc-1          " ++ suffixOf vpcErr ++ "\n"]) := by
  refine ⟨?_, ?_, ?_⟩
  · intro σ svc region s
    cases hl : (svc.DescribeAccountAttributes [some "default-vpc"] s).1 with
    | error e =>
      have : (regionTask svc region s).events =
          [Event.call (Call.DescribeAccountAttributes [some "default-vpc"]) (Reply.failed e),
           Event.stderr (attrsErrorLine region e)] := by
        simp [regionTask, awsString, hl]
      rw [this]
      exact List.Forall₂.nil
    | ok attrs =>
      cases hv : defaultVpcId attrs with
      | none =>
        have : (regionTask svc region s).events = [lookupEvent attrs] := by
          simp [regionTask, awsString, hl, hv, lookupEvent]
        rw [this]
        exact List.Forall₂.nil
      | some v => exact (regionTask_trace svc region s attrs v hl hv).1.lines_match.1
  · intro σ svc region s attrs v hl hv
    exact (regionTask_trace svc region s attrs v hl hv).1.lines_match.2
  · intro vpcErr
    cases vpcErr <;> rfl

theorem stdout_lines_match_attempts_witness :
    List.Forall₂ (LineFor "us-west-2")
      [{ id := "igw-a", error := some "Gateway.NotAttached" },
       { id := "igw-b", error := some "DependencyViolation" },
       { id := "igw-c", error := none },
       { id := "vpc-1", error := none }]
      ["rm us-west-2       igw-a           (detach error: Gateway.NotAttached)\n",
       "rm us-west-2       igw-b           (error: DependencyViolation)\n",
       "rm us-west-2       igw-c          \n",
       "rm us-west-2       vpc-1          \n"] ∧
    [Attempt.id { id := "igw-a", error := some "Gateway.NotAttached" }, "igw-b", "igw-c", "vpc-1"]
      = [some "igw-a", some "igw-b", some "igw-c"].map awsStringValue ++ ["vpc-1"] :=
  ⟨stdout_lines_match_attempts.1 gateways "us-west-2" (),
   stdout_lines_match_attempts.2.1 gateways "us-west-2" () vpc1Attrs "vpc-1" rfl rfl⟩

end DeleteDefaultVpc
